import Mathlib

/-!
# docker-slim `build` command: orchestration of `OnCommand`

A shallow embedding of `pkg/app/master/commands/build/handler.go`.

`OnCommand` is one long sequential Go function that talks to external
collaborators (engine client, image inspector, container inspector, HTTP
probe, image builders, the output channel `xc.Out`).  The embedding keeps the
control flow of the source and records every collaborator call and every
output event, in program order, in a trace.  What a collaborator answers is
read from an environment record `Env`, one field per call site, so a theorem
quantified over `Env` speaks about every behaviour of the collaborators.

Process termination (`xc.Exit`, `errutil.FailOn`, `errutil.FailWhen`,
`errutil.Fail`) ends the run: nothing after it is executed.
-/

namespace Build

/-! ## Data model -/

/-- Value stored in an `ovars` map (`commands.OutVars`). -/
inductive Val where
  | str (s : String)
  | int (n : Int)
  | bool (b : Bool)
  deriving DecidableEq

/-- Go `type ovars = commands.OutVars`, a key/value map written as a literal. -/
abbrev ovars := List (String × Val)

/-- Symbolic float64 value: the expression that computes it.  Go evaluates
`float64(a) / float64(b)`; the embedding keeps the expression. -/
inductive F64 where
  | zero
  | ofInt (n : Int)
  | div (a b : F64)
  deriving DecidableEq

/-- Go `command.State` values used by the build command; `unset` is the zero value. -/
inductive State where
  | unset
  | started
  | completed
  | error
  | done
  deriving DecidableEq

/-- One layer entry of `DockerfileInfo.ImageStack`. -/
structure ImageStackEntry where
  FullName : String
  ID : String
  deriving DecidableEq

/-- Go `report.ImageIdentity`. -/
structure ImageIdentity where
  ID : String := ""
  Tags : List String := []
  Names : List String := []
  Digests : List String := []
  FullDigests : List String := []
  deriving DecidableEq

/-- Go `report.ImageMetadata` (the fields `OnCommand` writes). -/
structure ImageMetadata where
  Identity : ImageIdentity := {}
  Size : Int := 0
  SizeHuman : String := ""
  CreateTime : String := ""
  Author : String := ""
  DockerVersion : String := ""
  Architecture : String := ""
  User : String := ""
  OS : String := ""
  ExposedPorts : List String := []
  Volumes : List String := []
  Labels : List (String × String) := []
  EnvVars : List String := []
  deriving DecidableEq

/-- Go `report.SystemMetadata`. -/
structure SystemMetadata where
  SysType : String := ""
  Release : String := ""
  Distro : String := ""
  deriving DecidableEq

/-- Go `report.BuildCommand`: the command report (`cmdReport`).  Every field
starts at its Go zero value. -/
structure BuildCommand where
  State : State := .unset
  Error : String := ""
  TargetReference : String := ""
  ImageStack : List ImageStackEntry := []
  MinifiedBy : F64 := .zero
  SourceImage : ImageMetadata := {}
  MinifiedImageSize : Int := 0
  MinifiedImageSizeHuman : String := ""
  MinifiedImage : String := ""
  MinifiedImageHasData : Bool := false
  ArtifactLocation : String := ""
  ContainerReportName : String := ""
  SeccompProfileName : String := ""
  AppArmorProfileName : String := ""
  System : SystemMetadata := {}
  deriving DecidableEq

/-- Go `commands.GenericParams` (the fields `OnCommand` reads). -/
structure GenericParams where
  CheckVersion : Bool := false
  InContainer : Bool := false
  IsDSImage : Bool := false
  Debug : Bool := false
  ReportLocation : String := ""
  StatePath : String := ""
  ArchiveState : String := ""
  deriving DecidableEq

/-- Go `config.ContainerBuildOptions` (the fields `OnCommand` reads or writes). -/
structure ContainerBuildOptions where
  Dockerfile : String := ""
  Tag : String := ""
  deriving DecidableEq

/-- Go `config.ContainerOverrides`: only `Network` steers `OnCommand`. -/
structure ContainerOverrides where
  Network : String := ""
  deriving DecidableEq

/-- Go `config.ContinueAfter`; `ContinueChan` is assigned by `OnCommand`
and appears in the trace. -/
structure ContinueAfter where
  Mode : String
  Timeout : Int := 0
  deriving DecidableEq

/-- The parameters of `OnCommand` that steer its control flow or are printed.
Parameters that are only handed through to a collaborator constructor
(probe commands, port bindings, mounts, path sets, ...) are left out. -/
structure Params where
  gparams : GenericParams := {}
  targetRef : String := ""
  doPull : Bool := false
  doShowPullLogs : Bool := false
  cbOpts : ContainerBuildOptions := {}
  customImageTag : String := ""
  doHTTPProbe : Bool := false
  doRmFileArtifacts : Bool := false
  copyMetaArtifactsLocation : String := ""
  doRunTargetAsUser : Bool := false
  doShowBuildLogs : Bool := false
  overrides : ContainerOverrides := {}
  doKeepPerms : Bool := false
  continueAfter : ContinueAfter
  execCmd : String := ""
  execFileCmd : String := ""
  deriving DecidableEq

/-- Error returned by `dockerclient.New`: the sentinel `ErrNoDockerInfo` or
any other error. -/
inductive ClientError where
  | ErrNoDockerInfo
  | other (msg : String)
  deriving DecidableEq

/-- Message of a `ClientError` (Go `err.Error()`). -/
def ClientError.msg : ClientError → String
  | .ErrNoDockerInfo => "no docker info"
  | .other m => m

/-- Go `docker.Image` plus its derived identity (`dockerutil.ImageToIdentity`),
as far as `OnCommand` reads it.  `ExposedPorts` and `Volumes` list the map
keys in the order the Go `range` visits them. -/
structure ImageInfo where
  ID : String := ""
  VirtualSize : Int := 0
  Created : String := ""
  Author : String := ""
  DockerVersion : String := ""
  Architecture : String := ""
  OS : String := ""
  User : String := ""
  ExposedPorts : List String := []
  Volumes : List String := []
  Labels : List (String × String) := []
  Env : List String := []
  ShortTags : List String := []
  RepoTags : List String := []
  ShortDigests : List String := []
  RepoDigests : List String := []
  deriving DecidableEq

/-- Go `DockerfileInfo` of the image inspector. -/
structure DockerfileInfo where
  ExeUser : String := ""
  AllUsers : List String := []
  ImageStack : List ImageStackEntry := []
  ExposedPorts : List String := []
  deriving DecidableEq

/-- Go `http.CustomProbe`, the fields `OnCommand` reads. -/
structure CustomProbe where
  Ports : List String := []
  CallCount : Nat := 0
  OkCount : Nat := 0
  deriving DecidableEq

/-- Go `docker.ExecInspect`, the fields `OnCommand` reads. -/
structure ExecInspect where
  Running : Bool := false
  ExitCode : Int := 0
  deriving DecidableEq

/-- Answers of the collaborators and of the platform, one field per call
site of `OnCommand`.  An error result is `some message`, success is `none`.
The four `EC...` fields are the constants of package `commands`, which is
not part of this source tree. -/
structure Env where
  ECTCommon : Nat := 0x01000000
  ECTBuild : Nat := 0x02000000
  ECNoDockerConnectInfo : Nat := 2
  ECBadNetworkName : Nat := 3
  GOOS : String := "linux"
  vCurrent : String := ""
  ExeDir : String := ""
  Getpid : Nat := 0
  nowUTC : String := ""
  humanizeBytes : Int → String := fun _ => ""
  formatRatio : F64 → String := fun _ => ""
  dockerclientNew : Option ClientError := none
  NewBasicImageBuilder : Option String := none
  fatBuilderBuild : Option String := none
  fatBuildLog : String := ""
  ConfirmNetwork : String → Bool := fun _ => true
  imageNewInspector : Option String := none
  imageNoImage : Bool := false
  imagePull : Option String := none
  imageInspect : Option String := none
  imageInfo : ImageInfo := {}
  imageProcessCollectedData : Option String := none
  imageDockerfileInfo : Option DockerfileInfo := none
  SlimImageRepo : String := ""
  SeccompProfileName : String := ""
  AppArmorProfileName : String := ""
  localVolumePath : String := ""
  artifactLocation : String := ""
  statePath : String := ""
  stateKey : String := ""
  containerNewInspector : Option String := none
  FatContainerCmd : List String := []
  RunContainer : Option String := none
  ContainerName : String := ""
  ContainerID : String := ""
  ContainerPortList : String := ""
  ContainerPortsInfo : String := ""
  NewCustomProbe : Option String := none
  probe : CustomProbe := {}
  CreateExec : Option String := none
  execID : String := ""
  StartExec : Option String := none
  InspectExec : Option String := none
  inspect : ExecInspect := {}
  ShutdownContainer : Option String := none
  HasCollectedData : Bool := false
  containerProcessCollectedData : Option String := none
  NewImageBuilder : Option String := none
  builderHasData : Bool := false
  builderRepoName : String := ""
  builderBuild : Option String := none
  builderBuildLog : String := ""
  newImageNewInspector : Option String := none
  newImageNoImage : Bool := false
  newImageInspect : Option String := none
  newImageInfo : ImageInfo := {}
  DefaultContainerReportFileName : String := "creport.json"
  ReadFile : Option String := none
  Unmarshal : Option String := none
  creportSystem : SystemMetadata := {}
  CopyMetaArtifacts : Bool := true
  DoArchiveState : Option String := none
  fsutilRemove : Option String := none
  Save : Bool := true
  ReportLocation : String := ""

/-- One observable step of `OnCommand`: a call on a collaborator, an output
event on `xc.Out`, a log line, or a blocking wait. -/
inductive Call where
  | version_CheckAsync
  | dockerclient_New
  | OutError (name msg : String)
  | OutState (name : String) (vars : ovars)
  | OutInfo (name : String) (vars : ovars)
  | OutPrompt (msg : String)
  | OutLogDump (name log : String) (vars : ovars)
  | xc_Exit (code : Nat)
  | log (msg : String)
  | warn (err : String)
  | builder_NewBasicImageBuilder (cbOptsTag targetRef : String)
  | fatBuilder_Build
  | version_Print
  | commands_ConfirmNetwork (network : String)
  | image_NewInspector (imageRef : String)
  | imageInspector_NoImage
  | imageInspector_Pull (showLogs : Bool)
  | imageInspector_Inspect
  | fsutil_PrepareImageStateDirs (statePath imageID : String)
  | imageInspector_set_ArtifactLocation (loc : String)
  | imageInspector_ProcessCollectedData
  | container_NewInspector
  | containerInspector_RunContainer
  | http_NewCustomProbe
  | containerInspector_FinishMonitoring
  | containerInspector_ShutdownContainer
  | probe_Start
  | probe_DoneChan
  | continueAfter_set_ContinueChan
  | creader_ReadLine
  | APIClient_CreateExec (container : String) (cmd : List String)
  | APIClient_StartExec (execID input : String)
  | APIClient_InspectExec (execID : String)
  | recv_ContinueChan
  | time_After (seconds : Int)
  | containerInspector_set_DoShowContainerLogs (b : Bool)
  | containerInspector_HasCollectedData
  | imageInspector_ShowFatImageDockerInstructions
  | containerInspector_ProcessCollectedData
  | builder_NewImageBuilder (customImageTag artifactLocation : String)
  | builder_Build
  | newImageInspector_NoImage
  | newImageInspector_Inspect
  | ioutil_ReadFile (dir name : String)
  | commands_CopyMetaArtifacts (names : List String) (src dst : String)
  | commands_DoArchiveState (artifactLocation archiveState stateKey : String)
  | fsutil_Remove (path : String)
  | recv_viChan
  | version_PrintCheckVersion
  | cmdReport_Save (r : BuildCommand)
  deriving DecidableEq

/-- How the process was ended before `OnCommand` returned. -/
inductive Outcome where
  | exit (code : Nat)
  | failure (msg : String)
  deriving DecidableEq

/-- Result of a piece of the program: it ran to its end with a value, or it
ended the process. -/
inductive Res (α : Type) where
  | ok (a : α)
  | halt (o : Outcome)
  deriving DecidableEq

/-- A piece of the program: the steps it performed, in order, and its result. -/
structure M (α : Type) where
  trace : List Call
  res : Res α

/-- The steps of a continuation: performed only when the first piece returned. -/
def after {α : Type} (r : Res α) (k : α → List Call) : List Call :=
  match r with
  | .ok a => k a
  | .halt _ => []

/-- The result of a continuation: the first piece's termination wins. -/
def Res.andThen {α β : Type} (r : Res α) (k : α → Res β) : Res β :=
  match r with
  | .ok a => k a
  | .halt o => .halt o

/-- Sequencing: the second piece runs only when the first did not end the process. -/
def M.bind {α β : Type} (x : M α) (f : α → M β) : M β :=
  ⟨x.trace ++ after x.res (fun a => (f a).trace), x.res.andThen (fun a => (f a).res)⟩

instance : Monad M where
  pure a := ⟨[], .ok a⟩
  bind := M.bind

/-- Perform one observable step. -/
def call (c : Call) : M Unit := ⟨[c], .ok ()⟩

/-- Modelled from the spec: `xc.Exit` of `commands.ExecutionContext` (not in
this source tree) is a process-terminating call; the run ends with the given
exit code. -/
def xc_Exit {α : Type} (code : Nat) : M α := ⟨[.xc_Exit code], .halt (.exit code)⟩

/-- Modelled from the spec: `errutil.FailOn` (not in this source tree)
terminates the process immediately when the error is non-nil. -/
def errutil_FailOn (err : Option String) : M Unit :=
  match err with
  | none => pure ()
  | some msg => ⟨[], .halt (.failure msg)⟩

/-- Modelled from the spec: `errutil.FailWhen` terminates the process
immediately when the condition holds. -/
def errutil_FailWhen (cond : Bool) (msg : String) : M Unit :=
  if cond then ⟨[], .halt (.failure msg)⟩ else pure ()

/-- Modelled from the spec: `errutil.Fail` terminates the process immediately. -/
def errutil_Fail {α : Type} (msg : String) : M α := ⟨[], .halt (.failure msg)⟩

/-- Modelled from the spec: `errutil.WarnOn` logs a non-nil error and goes on. -/
def errutil_WarnOn (err : Option String) : M Unit :=
  match err with
  | none => pure ()
  | some msg => call (.warn msg)

/-- Run a loop body over a list, in order (Go `for _, x := range xs`). -/
def forRange {α : Type} (xs : List α) (body : α → M Unit) : M Unit :=
  match xs with
  | [] => pure ()
  | x :: rest => do
    body x
    forRange rest body

/-- Split a list of characters at every occurrence of the separator. -/
def splitChars (sep : Char) : List Char → List (List Char)
  | [] => [[]]
  | c :: cs =>
    if c = sep then [] :: splitChars sep cs
    else
      match splitChars sep cs with
      | [] => [[c]]
      | part :: parts => (c :: part) :: parts

/-- Go `strings.Split(s, sep)` for a one-character separator. -/
def stringsSplit (s : String) (sep : Char) : List String :=
  (splitChars sep s.toList).map String.mk

/-- Go `strings.Join(xs, sep)`. -/
def stringsJoin (xs : List String) (sep : String) : String :=
  sep.intercalate xs

/-! ## Exit codes (handler.go 38-44) -/

def ecbOther : Nat := 1
def ecbBadCustomImageTag : Nat := 2
def ecbImageBuildError : Nat := 3
def ecbNoEntrypoint : Nat := 4

/-- The "exited" state event of a classified abort that reports version and
location. -/
def exitedVars (e : Env) (exitCode : Nat) : ovars :=
  [("exit.code", .int exitCode), ("version", .str e.vCurrent), ("location", .str e.ExeDir)]

/-! ## `OnCommand`, stage by stage, in source order -/

/-- handler.go 104-131: version check, report creation, engine client. -/
def connect (p : Params) (e : Env) : M BuildCommand := do
  call .version_CheckAsync
  let cmdReport : BuildCommand := {}
  let cmdReport := { cmdReport with State := .started }
  let cmdReport := { cmdReport with TargetReference := p.targetRef }
  call .dockerclient_New
  if e.dockerclientNew = some .ErrNoDockerInfo then
    let exitMsg :=
      if p.gparams.InContainer && p.gparams.IsDSImage then
        "make sure to pass the Docker connect parameters to the docker-slim container"
      else "missing Docker connection info"
    call (.OutError "docker.connect.error" exitMsg)
    let exitCode := e.ECTCommon ||| e.ECNoDockerConnectInfo
    call (.OutState "exited" (exitedVars e exitCode))
    xc_Exit exitCode
  errutil_FailOn (e.dockerclientNew.map ClientError.msg)
  call (.OutState "started" [])
  pure cmdReport

/-- handler.go 133-150: the "params" info event. -/
def paramsInfo (p : Params) : M Unit := do
  if p.cbOpts.Dockerfile = "" then
    call (.OutInfo "params"
      [("target", .str p.targetRef),
       ("continue.mode", .str p.continueAfter.Mode),
       ("rt.as.user", .bool p.doRunTargetAsUser),
       ("keep.perms", .bool p.doKeepPerms)])
  else
    call (.OutInfo "params"
      [("context", .str p.targetRef),
       ("file", .str p.cbOpts.Dockerfile),
       ("continue.mode", .str p.continueAfter.Mode),
       ("rt.as.user", .bool p.doRunTargetAsUser),
       ("keep.perms", .bool p.doKeepPerms)])

/-- handler.go 158-192: the name of the fat image. -/
def fatImageRepoNameTag (p : Params) (e : Env) : M String := do
  if p.cbOpts.Tag ≠ "" then
    pure p.cbOpts.Tag
  else if p.customImageTag ≠ "" then
    let citParts := stringsSplit p.customImageTag ':'
    if citParts.length = 1 then
      pure (p.customImageTag ++ ".fat")
    else if citParts.length = 2 then
      pure (citParts.getD 0 "" ++ ".fat:" ++ citParts.getD 1 "")
    else
      call (.OutInfo "param.error"
        [("status", .str "malformed.custom.image.tag"),
         ("value", .str p.customImageTag)])
      let exitCode := e.ECTBuild ||| ecbBadCustomImageTag
      call (.OutState "exited" (exitedVars e exitCode))
      xc_Exit exitCode
  else
    pure ("docker-slim-tmp-fat-image." ++ toString e.Getpid ++ "." ++ e.nowUTC)

/-- handler.go 152-241: the optional Dockerfile-based build of the fat image.
Returns the target reference used from here on. -/
def fatImageBuild (p : Params) (e : Env) : M String := do
  if p.cbOpts.Dockerfile ≠ "" then
    call (.OutState "building" [("message", .str "building basic image")])
    let fatTag ← fatImageRepoNameTag p e
    let cbOptsTag := fatTag
    call (.OutInfo "basic.image.info"
      [("tag", .str cbOptsTag),
       ("dockerfile", .str p.cbOpts.Dockerfile),
       ("context", .str p.targetRef)])
    call (.builder_NewBasicImageBuilder cbOptsTag p.targetRef)
    errutil_FailOn e.NewBasicImageBuilder
    call .fatBuilder_Build
    let err := e.fatBuilderBuild
    if p.doShowBuildLogs || err ≠ none then
      call (.OutLogDump "regular.image.build" e.fatBuildLog [("tag", .str cbOptsTag)])
    if err ≠ none then
      call (.OutInfo "build.error"
        [("status", .str "standard.image.build.error"),
         ("value", .str (err.getD ""))])
      let exitCode := e.ECTBuild ||| ecbImageBuildError
      call (.OutState "exited" (exitedVars e exitCode))
      xc_Exit exitCode
    call (.OutState "basic.image.build.completed" [])
    pure fatTag
  else
    pure p.targetRef

/-- handler.go 243-287: log line, optional version print, network-name validation. -/
def networkCheck (p : Params) (e : Env) : M Unit := do
  call (.log "image=%v http-probe=%v remove-file-artifacts=%v image-overrides=%+v ...")
  if p.gparams.Debug then
    call .version_Print
  if p.overrides.Network = "host" ∧ e.GOOS = "darwin" then
    call (.OutInfo "param.error"
      [("status", .str "unsupported.network.mac"),
       ("value", .str p.overrides.Network)])
    let exitCode := e.ECTCommon ||| e.ECBadNetworkName
    call (.OutState "exited" (exitedVars e exitCode))
    xc_Exit exitCode
  call (.commands_ConfirmNetwork p.overrides.Network)
  if ¬ e.ConfirmNetwork p.overrides.Network then
    call (.OutInfo "param.error"
      [("status", .str "unknown.network"),
       ("value", .str p.overrides.Network)])
    let exitCode := e.ECTCommon ||| e.ECBadNetworkName
    call (.OutState "exited" (exitedVars e exitCode))
    xc_Exit exitCode

/-- handler.go 289-319: image inspector construction; pull or abort when the
image is absent. -/
def imageResolution (p : Params) (e : Env) (targetRef : String) : M Unit := do
  call (.image_NewInspector targetRef)
  errutil_FailOn e.imageNewInspector
  call .imageInspector_NoImage
  if e.imageNoImage then
    if p.doPull then
      call (.OutInfo "target.image"
        [("status", .str "image.not.found"),
         ("image", .str targetRef),
         ("message", .str "trying to pull target image")])
      call (.imageInspector_Pull p.doShowPullLogs)
      errutil_FailOn e.imagePull
    else
      call (.OutInfo "target.image.error"
        [("status", .str "image.not.found"),
         ("image", .str targetRef),
         ("message", .str "make sure the target image already exists locally")])
      let exitCode := e.ECTBuild ||| ecbImageBuildError
      call (.OutState "exited" [("exit.code", .int exitCode)])
      xc_Exit exitCode

/-- handler.go 342-370: the informational events about the Dockerfile-derived
data; returns the report with the image stack recorded. -/
def dockerfileInfoEvents (e : Env) (cmdReport : BuildCommand) : M BuildCommand := do
  match e.imageDockerfileInfo with
  | none => pure cmdReport
  | some info =>
    if info.ExeUser ≠ "" then
      call (.OutInfo "image.users"
        [("exe", .str info.ExeUser),
         ("all", .str (stringsJoin info.AllUsers ","))])
    let cmdReport ←
      if info.ImageStack.length > 0 then do
        let cmdReport := { cmdReport with ImageStack := info.ImageStack }
        forRange info.ImageStack.enum (fun idxLayerInfo =>
          call (.OutInfo "image.stack"
            [("index", .int idxLayerInfo.1),
             ("name", .str idxLayerInfo.2.FullName),
             ("id", .str idxLayerInfo.2.ID)]))
        pure cmdReport
      else pure cmdReport
    if info.ExposedPorts.length > 0 then
      call (.OutInfo "image.exposed_ports"
        [("list", .str (stringsJoin info.ExposedPorts ","))])
    pure cmdReport

/-- handler.go 321-372: inspection of the fat image. -/
def imageInspection (p : Params) (e : Env) (cmdReport : BuildCommand) : M BuildCommand := do
  call (.OutState "image.inspection.start" [])
  call (.log "inspecting \x27fat\x27 image metadata...")
  call .imageInspector_Inspect
  errutil_FailOn e.imageInspect
  call (.fsutil_PrepareImageStateDirs p.gparams.StatePath e.imageInfo.ID)
  call (.imageInspector_set_ArtifactLocation e.artifactLocation)
  call (.log "localVolumePath=%v, artifactLocation=%v, statePath=%v, stateKey=%v")
  call (.OutInfo "image"
    [("id", .str e.imageInfo.ID),
     ("size.bytes", .int e.imageInfo.VirtualSize),
     ("size.human", .str (e.humanizeBytes e.imageInfo.VirtualSize))])
  call (.log "processing \x27fat\x27 image info...")
  call .imageInspector_ProcessCollectedData
  errutil_FailOn e.imageProcessCollectedData
  let cmdReport ← dockerfileInfoEvents e cmdReport
  call (.OutState "image.inspection.done" [])
  pure cmdReport

/-- handler.go 373-435: container inspector construction, entrypoint check,
container launch. -/
def containerLaunch (e : Env) (targetRef : String) : M Unit := do
  call (.OutState "container.inspection.start" [])
  call .container_NewInspector
  errutil_FailOn e.containerNewInspector
  if e.FatContainerCmd.length = 0 then
    call (.OutInfo "target.image.error"
      [("status", .str "no.entrypoint.cmd"),
       ("image", .str targetRef),
       ("message", .str "no ENTRYPOINT/CMD")])
    let exitCode := e.ECTBuild ||| ecbNoEntrypoint
    call (.OutState "exited" [("exit.code", .int exitCode)])
    xc_Exit exitCode
  call (.log "starting instrumented \x27fat\x27 container...")
  call .containerInspector_RunContainer
  errutil_FailOn e.RunContainer
  call (.OutInfo "container"
    [("name", .str e.ContainerName),
     ("id", .str e.ContainerID),
     ("target.port.list", .str e.ContainerPortList),
     ("target.port.info", .str e.ContainerPortsInfo),
     ("message", .str "YOU CAN USE THESE PORTS TO INTERACT WITH THE CONTAINER")])
  call (.log "watching container monitor...")

/-- handler.go 437-439: probe mode forces HTTP probing on. -/
def forceHTTPProbe (p : Params) : Bool :=
  if "probe" = p.continueAfter.Mode then true else p.doHTTPProbe

/-- handler.go 441-486: probe construction, the zero-ports abort, probe start.
Returns the probe (Go `nil` is `none`). -/
def httpProbeStart (e : Env) (doHTTPProbe : Bool) : M (Option CustomProbe) := do
  if doHTTPProbe then
    call .http_NewCustomProbe
    errutil_FailOn e.NewCustomProbe
    let probe := e.probe
    if probe.Ports.length = 0 then
      call (.OutState "http.probe.error"
        [("error", .str "no exposed ports"),
         ("message", .str "expose your service port with --expose or disable HTTP probing with --http-probe=false if your containerized application doesnt expose any network services")])
      call (.log "shutting down \x27fat\x27 container...")
      call .containerInspector_FinishMonitoring
      call .containerInspector_ShutdownContainer
      let exitCode := e.ECTBuild ||| ecbImageBuildError
      call (.OutState "exited" [("exit.code", .int exitCode)])
      xc_Exit exitCode
    call .probe_Start
    call .probe_DoneChan
    call .continueAfter_set_ContinueChan
    pure (some probe)
  else
    pure none

/-- handler.go 488-494: the message of the "continue.after" info event. -/
def continueAfterMsg (mode : String) : String :=
  if mode = "timeout" then
    "no input required, execution will resume after the timeout"
  else if mode = "probe" then
    "no input required, execution will resume when HTTP probing is completed"
  else
    "provide the expected input to allow the container inspector to continue its execution"

/-- handler.go 509-556: the exec branch of the continue-after switch.
Returns `execFail`. -/
def execBranch (p : Params) (e : Env) : M Bool := do
  let inputCmd ←
    if p.execFileCmd.length ≠ 0 then do
      forRange (stringsSplit p.execFileCmd '\n') (fun line =>
        call (.OutInfo "continue.after" [("mode", .str "exec"), ("shell", .str line)]))
      pure (p.execFileCmd, ["sh", "-s"])
    else do
      call (.OutInfo "continue.after" [("mode", .str "exec"), ("shell", .str p.execCmd)])
      pure ("", ["sh", "-c", p.execCmd])
  let input := inputCmd.1
  let cmd := inputCmd.2
  call (.APIClient_CreateExec e.ContainerID cmd)
  errutil_FailOn e.CreateExec
  call (.APIClient_StartExec e.execID input)
  errutil_FailOn e.StartExec
  call (.APIClient_InspectExec e.execID)
  errutil_FailOn e.InspectExec
  let inspect := e.inspect
  errutil_FailWhen inspect.Running "still running"
  let execFail := if inspect.ExitCode ≠ 0 then true else false
  call (.OutInfo "continue.after" [("mode", .str "exec"), ("exitcode", .int inspect.ExitCode)])
  pure execFail

/-- handler.go 488-585: the "continue.after" announcement and the switch on
the continue-after mode.  Returns `execFail`. -/
def continueAfterWait (p : Params) (e : Env) (probe : Option CustomProbe) : M Bool := do
  let mode := p.continueAfter.Mode
  call (.OutInfo "continue.after"
    [("mode", .str mode), ("message", .str (continueAfterMsg mode))])
  let execFail := false
  if mode = "enter" then
    call (.OutPrompt "USER INPUT REQUIRED, PRESS <ENTER> WHEN YOU ARE DONE USING THE CONTAINER")
    call .creader_ReadLine
    pure execFail
  else if mode = "exec" then
    execBranch p e
  else if mode = "signal" then
    call (.OutPrompt "send SIGUSR1 when you are done using the container")
    call .recv_ContinueChan
    call (.OutInfo "event" [("message", .str "got SIGUSR1")])
    pure execFail
  else if mode = "timeout" then
    call (.OutPrompt
      ("waiting for the target container (" ++ toString p.continueAfter.Timeout ++ " seconds)"))
    call (.time_After p.continueAfter.Timeout)
    call (.OutInfo "event" [("message", .str "done waiting for the target container")])
    pure execFail
  else if mode = "probe" then
    call (.OutPrompt "waiting for the HTTP probe to finish")
    call .recv_ContinueChan
    call (.OutInfo "event" [("message", .str "HTTP probe is done")])
    if probe.any (fun pr => pr.CallCount > 0 ∧ pr.OkCount = 0) then
      call (.containerInspector_set_DoShowContainerLogs true)
    pure execFail
  else
    errutil_Fail "unknown continue-after mode"

/-- handler.go 587-609: monitoring finish, container shutdown, the
exec-failure exit. -/
def teardown (e : Env) (execFail : Bool) : M Unit := do
  call (.OutState "container.inspection.finishing" [])
  call .containerInspector_FinishMonitoring
  call (.log "shutting down \x27fat\x27 container...")
  call .containerInspector_ShutdownContainer
  errutil_WarnOn e.ShutdownContainer
  if execFail then
    call (.OutInfo "continue.after"
      [("mode", .str "exec"), ("message", .str "fatal: exec cmd failure")])
    let exitCode : Nat := 1
    call (.OutState "exited" [("exit.code", .int exitCode)])
    xc_Exit exitCode

/-- handler.go 611-637: the collected-data check and the processing of the
collected data.  Returns the custom image tag used for the minimized image. -/
def artifactCheck (p : Params) (e : Env) : M String := do
  call (.OutState "container.inspection.artifact.processing" [])
  call .containerInspector_HasCollectedData
  if ¬ e.HasCollectedData then
    call .imageInspector_ShowFatImageDockerInstructions
    call (.OutInfo "results"
      [("status", .str "no data collected (no minified image generated)"),
       ("version", .str e.vCurrent),
       ("location", .str e.ExeDir)])
    let exitCode := e.ECTBuild ||| ecbImageBuildError
    call (.OutState "exited" [("exit.code", .int exitCode)])
    xc_Exit exitCode
  call (.log "processing instrumented \x27fat\x27 container info...")
  call .containerInspector_ProcessCollectedData
  errutil_FailOn e.containerProcessCollectedData
  let customImageTag := if p.customImageTag = "" then e.SlimImageRepo else p.customImageTag
  pure customImageTag

/-- handler.go 639-687: the build of the minimized image. -/
def minimizedImageBuild (p : Params) (e : Env) (customImageTag : String)
    (cmdReport : BuildCommand) : M BuildCommand := do
  call (.OutState "container.inspection.done" [])
  call (.OutState "building" [("message", .str "building optimized image")])
  call (.builder_NewImageBuilder customImageTag e.artifactLocation)
  errutil_FailOn e.NewImageBuilder
  if ¬ e.builderHasData then
    call (.log "WARNING - no data artifacts")
  call .builder_Build
  let err := e.builderBuild
  if p.doShowBuildLogs || err ≠ none then
    call (.OutLogDump "optimized.image.build" e.builderBuildLog [("tag", .str customImageTag)])
  if err ≠ none then
    call (.OutInfo "build.error"
      [("status", .str "optimized.image.build.error"),
       ("error", .str (err.getD ""))])
    let exitCode := e.ECTBuild ||| ecbImageBuildError
    call (.OutState "exited" (exitedVars e exitCode))
    xc_Exit exitCode
  call (.OutState "completed" [])
  pure { cmdReport with State := .completed }

/-- handler.go 713-745: the report fields written when the minimized image
was inspected. -/
def recordMinified (e : Env) (cmdReport : BuildCommand) : BuildCommand :=
  let cmdReport := { cmdReport with
    MinifiedBy := .div (.ofInt e.imageInfo.VirtualSize) (.ofInt e.newImageInfo.VirtualSize) }
  let cmdReport := { cmdReport with
    SourceImage :=
      { Identity :=
          { ID := e.imageInfo.ID
            Tags := e.imageInfo.ShortTags
            Names := e.imageInfo.RepoTags
            Digests := e.imageInfo.ShortDigests
            FullDigests := e.imageInfo.RepoDigests }
        Size := e.imageInfo.VirtualSize
        SizeHuman := e.humanizeBytes e.imageInfo.VirtualSize
        CreateTime := e.imageInfo.Created
        Author := e.imageInfo.Author
        DockerVersion := e.imageInfo.DockerVersion
        Architecture := e.imageInfo.Architecture
        User := e.imageInfo.User
        OS := e.imageInfo.OS } }
  let cmdReport := { cmdReport with
    SourceImage := { cmdReport.SourceImage with
      ExposedPorts := cmdReport.SourceImage.ExposedPorts ++ e.imageInfo.ExposedPorts } }
  let cmdReport := { cmdReport with
    SourceImage := { cmdReport.SourceImage with
      Volumes := cmdReport.SourceImage.Volumes ++ e.imageInfo.Volumes } }
  let cmdReport := { cmdReport with
    SourceImage := { cmdReport.SourceImage with Labels := e.imageInfo.Labels } }
  let cmdReport := { cmdReport with
    SourceImage := { cmdReport.SourceImage with EnvVars := e.imageInfo.Env } }
  let cmdReport := { cmdReport with MinifiedImageSize := e.newImageInfo.VirtualSize }
  { cmdReport with MinifiedImageSizeHuman := e.humanizeBytes e.newImageInfo.VirtualSize }

/-- handler.go 690-764: the minimized image is looked up and inspected; the
report is filled in. -/
def resultVerification (e : Env) (cmdReport : BuildCommand) : M BuildCommand := do
  call (.image_NewInspector e.builderRepoName)
  errutil_FailOn e.newImageNewInspector
  call .newImageInspector_NoImage
  if e.newImageNoImage then
    call (.OutInfo "results"
      [("message", .str "minified image not found"),
       ("image", .str e.builderRepoName)])
    let exitCode := e.ECTBuild ||| ecbImageBuildError
    call (.OutState "exited" [("exit.code", .int exitCode)])
    xc_Exit exitCode
  call .newImageInspector_Inspect
  let err := e.newImageInspect
  errutil_WarnOn err
  let cmdReport ←
    if err = none then do
      let cmdReport := recordMinified e cmdReport
      call (.OutInfo "results"
        [("status", .str "MINIFIED"),
         ("by", .str (e.formatRatio cmdReport.MinifiedBy)),
         ("size.original", .str cmdReport.SourceImage.SizeHuman),
         ("size.optimized", .str cmdReport.MinifiedImageSizeHuman)])
      pure cmdReport
    else
      pure { cmdReport with State := .error, Error := err.getD "" }
  let cmdReport := { cmdReport with MinifiedImage := e.builderRepoName }
  let cmdReport := { cmdReport with MinifiedImageHasData := e.builderHasData }
  let cmdReport := { cmdReport with ArtifactLocation := e.artifactLocation }
  let cmdReport := { cmdReport with ContainerReportName := e.DefaultContainerReportFileName }
  let cmdReport := { cmdReport with SeccompProfileName := e.SeccompProfileName }
  let cmdReport := { cmdReport with AppArmorProfileName := e.AppArmorProfileName }
  pure cmdReport

/-- handler.go 803-820: system metadata copied from the container report file. -/
def readContainerReport (e : Env) (cmdReport : BuildCommand) : M BuildCommand := do
  if cmdReport.ArtifactLocation ≠ "" then
    call (.ioutil_ReadFile cmdReport.ArtifactLocation cmdReport.ContainerReportName)
    if e.ReadFile = none then
      if e.Unmarshal = none then
        pure { cmdReport with
          System :=
            { SysType := e.creportSystem.SysType
              Release := e.creportSystem.Release
              Distro := e.creportSystem.Distro } }
      else do
        call (.log "could not read container report - json parsing error - %v")
        pure cmdReport
    else do
      call (.log "could not read container report - %v")
      pure cmdReport
  else
    pure cmdReport

/-- handler.go 766-871: result events, best-effort side effects, the "done"
event, the version check result, and the saving of the report. -/
def reporting (p : Params) (e : Env) (cmdReport : BuildCommand) : M Unit := do
  call (.OutInfo "results"
    [("image.name", .str cmdReport.MinifiedImage),
     ("image.size", .str cmdReport.MinifiedImageSizeHuman),
     ("has.data", .bool cmdReport.MinifiedImageHasData)])
  call (.OutInfo "results" [("artifacts.location", .str cmdReport.ArtifactLocation)])
  call (.OutInfo "results" [("artifacts.report", .str cmdReport.ContainerReportName)])
  call (.OutInfo "results" [("artifacts.dockerfile.reversed", .str "Dockerfile.fat")])
  call (.OutInfo "results" [("artifacts.dockerfile.optimized", .str "Dockerfile")])
  call (.OutInfo "results" [("artifacts.seccomp", .str cmdReport.SeccompProfileName)])
  call (.OutInfo "results" [("artifacts.apparmor", .str cmdReport.AppArmorProfileName)])
  let cmdReport ← readContainerReport e cmdReport
  if p.copyMetaArtifactsLocation ≠ "" then
    let toCopy :=
      [e.DefaultContainerReportFileName, e.SeccompProfileName, e.AppArmorProfileName]
    call (.commands_CopyMetaArtifacts toCopy e.artifactLocation p.copyMetaArtifactsLocation)
    if ¬ e.CopyMetaArtifacts then
      call (.OutInfo "artifacts" [("message", .str "could not copy meta artifacts")])
  call (.commands_DoArchiveState e.artifactLocation p.gparams.ArchiveState e.stateKey)
  if e.DoArchiveState ≠ none then
    call (.OutInfo "state" [("message", .str "could not archive state")])
    call (.log "error archiving state - %v")
  if p.doRmFileArtifacts then
    call (.log "removing temporary artifacts...")
    call (.fsutil_Remove e.artifactLocation)
    errutil_WarnOn e.fsutilRemove
  call (.OutState "done" [])
  call (.OutInfo "commands"
    [("message", .str "use the xray command to learn more about the optimize image")])
  call .recv_viChan
  call .version_PrintCheckVersion
  let cmdReport := { cmdReport with State := .done }
  call (.cmdReport_Save cmdReport)
  if e.Save then
    call (.OutInfo "report" [("file", .str e.ReportLocation)])

/-- handler.go 49-871: the `build` command. -/
def OnCommand (p : Params) (e : Env) : M Unit := do
  let cmdReport ← connect p e
  paramsInfo p
  let targetRef ← fatImageBuild p e
  networkCheck p e
  imageResolution p e targetRef
  let cmdReport ← imageInspection p e cmdReport
  containerLaunch e targetRef
  let doHTTPProbe := forceHTTPProbe p
  let probe ← httpProbeStart e doHTTPProbe
  let execFail ← continueAfterWait p e probe
  teardown e execFail
  let customImageTag ← artifactCheck p e
  let cmdReport ← minimizedImageBuild p e customImageTag cmdReport
  let cmdReport ← resultVerification e cmdReport
  reporting p e cmdReport

/-! ## Segments of `OnCommand`

`OnCommand` is the sequence of three segments (`OnCommand_eq` below): the
stages up to the inspection of the fat image, the stages around the
instrumented container, and the stages that build and report the minimized
image. -/

/-- handler.go 104-372: from the start to the end of the image inspection.
Returns the report and the target reference. -/
def prepare (p : Params) (e : Env) : M (BuildCommand × String) := do
  let cmdReport ← connect p e
  paramsInfo p
  let targetRef ← fatImageBuild p e
  networkCheck p e
  imageResolution p e targetRef
  let cmdReport ← imageInspection p e cmdReport
  pure (cmdReport, targetRef)

/-- handler.go 373-609: container launch, workload trigger, teardown. -/
def observe (p : Params) (e : Env) (targetRef : String) : M Unit := do
  containerLaunch e targetRef
  let doHTTPProbe := forceHTTPProbe p
  let probe ← httpProbeStart e doHTTPProbe
  let execFail ← continueAfterWait p e probe
  teardown e execFail

/-- handler.go 611-871: artifact check, minimized image, verification, reporting. -/
def minimize (p : Params) (e : Env) (cmdReport : BuildCommand) : M Unit := do
  let customImageTag ← artifactCheck p e
  let cmdReport ← minimizedImageBuild p e customImageTag cmdReport
  let cmdReport ← resultVerification e cmdReport
  reporting p e cmdReport

/-! ## Values the stages compute -/

/-- The report after handler.go 351-352. -/
def withImageStack (e : Env) (cmdReport : BuildCommand) : BuildCommand :=
  match e.imageDockerfileInfo with
  | none => cmdReport
  | some info =>
    if info.ImageStack.length > 0 then { cmdReport with ImageStack := info.ImageStack }
    else cmdReport

/-! ## Classes of steps -/

/-- The steps of a classified abort: the "exited" state event and `xc.Exit`. -/
def isTerminal : Call → Bool
  | .xc_Exit _ => true
  | .OutState name _ => name == "exited"
  | _ => false

/-- Steps that the segment `prepare` can perform: its collaborator calls and
any output other than the "done" state event and the "continue.after" info
events. -/
def inPrepare : Call → Bool
  | .OutError _ _ | .OutPrompt _ | .OutLogDump _ _ _ | .log _ | .warn _ | .xc_Exit _ => true
  | .OutState name _ => name != "done"
  | .OutInfo name _ => name != "continue.after"
  | .version_CheckAsync | .dockerclient_New | .builder_NewBasicImageBuilder _ _
  | .fatBuilder_Build | .version_Print | .commands_ConfirmNetwork _ | .image_NewInspector _
  | .imageInspector_NoImage | .imageInspector_Pull _ | .imageInspector_Inspect
  | .fsutil_PrepareImageStateDirs _ _ | .imageInspector_set_ArtifactLocation _
  | .imageInspector_ProcessCollectedData => true
  | _ => false

/-- Steps that the segment `observe` can perform: its collaborator calls and
any output other than the "started" and "done" state events and the log line
of the network validation. -/
def inObserve : Call → Bool
  | .OutError _ _ | .OutPrompt _ | .OutLogDump _ _ _ | .warn _ | .xc_Exit _ => true
  | .log msg =>
    msg != "image=%v http-probe=%v remove-file-artifacts=%v image-overrides=%+v ..."
  | .OutState name _ => name != "done" && name != "started"
  | .OutInfo _ _ => true
  | .container_NewInspector | .containerInspector_RunContainer | .http_NewCustomProbe
  | .containerInspector_FinishMonitoring | .containerInspector_ShutdownContainer
  | .probe_Start | .probe_DoneChan | .continueAfter_set_ContinueChan | .creader_ReadLine
  | .APIClient_CreateExec _ _ | .APIClient_StartExec _ _ | .APIClient_InspectExec _
  | .recv_ContinueChan | .time_After _ | .containerInspector_set_DoShowContainerLogs _ => true
  | _ => false

/-- Steps that the segment `minimize` can perform: its collaborator calls and
any output other than the "started" state event, the "continue.after" info
events and the log line of the network validation. -/
def inMinimize : Call → Bool
  | .OutError _ _ | .OutPrompt _ | .OutLogDump _ _ _ | .warn _ | .xc_Exit _ => true
  | .log msg =>
    msg != "image=%v http-probe=%v remove-file-artifacts=%v image-overrides=%+v ..."
  | .OutState name _ => name != "started"
  | .OutInfo name _ => name != "continue.after"
  | .containerInspector_HasCollectedData | .imageInspector_ShowFatImageDockerInstructions
  | .containerInspector_ProcessCollectedData | .builder_NewImageBuilder _ _ | .builder_Build
  | .image_NewInspector _ | .newImageInspector_NoImage | .newImageInspector_Inspect
  | .ioutil_ReadFile _ _ | .commands_CopyMetaArtifacts _ _ _ | .commands_DoArchiveState _ _ _
  | .fsutil_Remove _ | .recv_viChan | .version_PrintCheckVersion | .cmdReport_Save _ => true
  | _ => false

/-- The complement of a class of steps. -/
def notIn (cls : Call → Bool) (c : Call) : Bool := !cls c

/-- A piece that returned performed no step of a classified abort. -/
def clean {α : Type} (x : M α) : Prop :=
  ∀ a, x.res = .ok a → List.filter isTerminal x.trace = []

/-- The steps selected by `q`, with the result. -/
def proj {α : Type} (q : Call → Bool) (x : M α) : M α := ⟨x.trace.filter q, x.res⟩

/-- Steps put in front of a piece. -/
def prepend {α : Type} (T : List Call) (x : M α) : M α := ⟨T ++ x.trace, x.res⟩

/-! ## Classes of steps used by the claims -/

/-- Container launch, monitoring finish and container shutdown. -/
def isLaunchOrTeardown : Call → Bool
  | .containerInspector_RunContainer => true
  | .containerInspector_FinishMonitoring => true
  | .containerInspector_ShutdownContainer => true
  | _ => false

/-- A session with an unknown continue-after mode on an image that has a command. -/
def unknownModeParams : Params := { continueAfter := { Mode := "bogus" } }

/-- Collaborators that all succeed, on an image whose command is `sh`. -/
def healthyEnv : Env := { FatContainerCmd := ["sh"], HasCollectedData := true }

/-- Launch, probe calls, teardown calls, the steps of a classified abort, and
the calls of the continue-after branches. -/
def isProbeOrWait : Call → Bool
  | .containerInspector_RunContainer => true
  | .http_NewCustomProbe => true
  | .probe_Start => true
  | .probe_DoneChan => true
  | .continueAfter_set_ContinueChan => true
  | .containerInspector_FinishMonitoring => true
  | .containerInspector_ShutdownContainer => true
  | .OutState name _ => name == "exited"
  | .xc_Exit _ => true
  | .creader_ReadLine => true
  | .APIClient_CreateExec _ _ => true
  | .APIClient_StartExec _ _ => true
  | .APIClient_InspectExec _ => true
  | .recv_ContinueChan => true
  | .time_After _ => true
  | _ => false

/-- Launch, probe construction and probe start. -/
def isLaunchOrProbe : Call → Bool
  | .containerInspector_RunContainer => true
  | .http_NewCustomProbe => true
  | .probe_Start => true
  | _ => false

/-- The kinds of wait of the continue-after branches. -/
inductive Wait where
  | lineRead
  | execution
  | chanRecv
  | timer
  deriving DecidableEq

/-- The wait a step starts, if it starts one: the line read of `enter`, the
in-container execution of `exec`, the receive on the completion channel of
`signal` and `probe`, the timer of `timeout`. -/
def waitOf : Call → Option Wait
  | .creader_ReadLine => some .lineRead
  | .APIClient_CreateExec _ _ => some .execution
  | .recv_ContinueChan => some .chanRecv
  | .time_After _ => some .timer
  | _ => none

/-- The steps that start a wait, and the "continue.after" info events that
carry a message. -/
def isWaitOrAnnounce : Call → Bool
  | .creader_ReadLine => true
  | .APIClient_CreateExec _ _ => true
  | .recv_ContinueChan => true
  | .time_After _ => true
  | .OutInfo name vars => name == "continue.after" && (vars.lookup "message").isSome
  | _ => false

/-- The info event printed right before the continue-after switch (handler.go 496). -/
def continueAfterAnnounce (p : Params) : Call :=
  .OutInfo "continue.after"
    [("mode", .str p.continueAfter.Mode), ("message", .str (continueAfterMsg p.continueAfter.Mode))]

/-- A session in exec mode. -/
def execParams : Params := { continueAfter := { Mode := "exec" }, execCmd := "ls" }

/-- Collaborators that all succeed; the in-container command ends with exit code 2. -/
def execFailEnv : Env :=
  { FatContainerCmd := ["sh"], HasCollectedData := true,
    inspect := { Running := false, ExitCode := 2 } }

/-- A session in probe mode, probing not separately requested. -/
def probeParams : Params := { continueAfter := { Mode := "probe" } }

/-- A session in enter mode on an image without a command. -/
def enterParams : Params := { continueAfter := { Mode := "enter" } }

/-- Collaborators that all succeed, on an image without entrypoint and command. -/
def noCmdEnv : Env := { FatContainerCmd := [] }

/-- The start marker and the calls of the fat-image build. -/
def isFatBuild : Call → Bool
  | .OutState name _ => name == "started"
  | .builder_NewBasicImageBuilder _ _ => true
  | .fatBuilder_Build => true
  | _ => false

/-- The log line of the network validation, the fat-image build, and the
calls on the image inspector. -/
def isImageOp : Call → Bool
  | .log msg =>
    msg == "image=%v http-probe=%v remove-file-artifacts=%v image-overrides=%+v ..."
  | .fatBuilder_Build => true
  | .image_NewInspector _ => true
  | .imageInspector_NoImage => true
  | .imageInspector_Pull _ => true
  | .imageInspector_Inspect => true
  | _ => false

/-- The first step of the network validation (handler.go 243). -/
def networkCheckLog : Call :=
  .log "image=%v http-probe=%v remove-file-artifacts=%v image-overrides=%+v ..."

/-- A Dockerfile-based build with an explicit fat tag and a custom image tag
of three `:`-separated parts. -/
def explicitFatTagParams : Params :=
  { cbOpts := { Dockerfile := "Dockerfile", Tag := "fat:1" }, customImageTag := "a:b:c",
    continueAfter := { Mode := "enter" } }

/-- A Dockerfile-based build with a custom image tag of three `:`-separated
parts and no explicit fat tag. -/
def malformedTagParams : Params :=
  { cbOpts := { Dockerfile := "Dockerfile" }, customImageTag := "a:b:c",
    continueAfter := { Mode := "enter" } }

/-- A Dockerfile-based build with host networking. -/
def hostNetworkBuildParams : Params :=
  { cbOpts := { Dockerfile := "Dockerfile" }, overrides := { Network := "host" },
    continueAfter := { Mode := "enter" } }

/-- Collaborators that all succeed, on a darwin platform. -/
def darwinEnv : Env := { GOOS := "darwin", FatContainerCmd := ["sh"] }

/-- The collected-data check and the calls on the minimized-image builder. -/
def isMinBuild : Call → Bool
  | .containerInspector_HasCollectedData => true
  | .builder_NewImageBuilder _ _ => true
  | .builder_Build => true
  | _ => false

/-- Collaborators that all succeed, but no data was collected. -/
def noDataEnv : Env := { FatContainerCmd := ["sh"], HasCollectedData := false }

/-- A session on a target image with host networking. -/
def hostNetworkParams : Params :=
  { overrides := { Network := "host" }, continueAfter := { Mode := "enter" } }

/-- Every step. -/
def allSteps (_ : Call) : Bool := true

/-- A piece that ended through `xc.Exit` performed, as its last two steps,
the "exited" state event carrying the exit code and the exit itself, and no
other step of a classified abort before. -/
def exitsWell {α : Type} (x : M α) : Prop :=
  ∀ code, x.res = .halt (.exit code) →
    ∃ vars rest, x.trace.reverse = .xc_Exit code :: .OutState "exited" vars :: rest ∧
      vars.lookup "exit.code" = some (.int code) ∧ List.filter isTerminal rest = []

/-- The report a step saves. -/
def savedReport : Call → Option BuildCommand
  | .cmdReport_Save r => some r
  | _ => none

/-- The saving of the report. -/
def isSave : Call → Bool
  | .cmdReport_Save _ => true
  | _ => false

/-- No step at all. -/
def noStep (_ : Call) : Bool := false

/-- A session that completes with both image sizes known. -/
def sizedEnv : Env :=
  { FatContainerCmd := ["sh"], HasCollectedData := true,
    imageInfo := { VirtualSize := 1000 }, newImageInfo := { VirtualSize := 40 } }

/-- The inspection of the minimized image, the "done" state event and the
saving of the report. -/
def isVerifyStep : Call → Bool
  | .newImageInspector_Inspect | .cmdReport_Save _ => true
  | .OutState name _ => name == "done"
  | _ => false

/-- A session in which the inspection of the minimized image fails. -/
def inspectFailEnv : Env :=
  { FatContainerCmd := ["sh"], HasCollectedData := true, newImageInspect := some "no such image" }

/-- The "report" info event that follows a successful save. -/
def reportSavedInfo (e : Env) : List Call :=
  if e.Save then [.OutInfo "report" [("file", .str e.ReportLocation)]] else []

/-- A piece that returned saved the report once, as its last step but for the
"report" info event. -/
def savesLast (e : Env) {α : Type} (x : M α) : Prop :=
  ∀ a, x.res = .ok a →
    ∃ r rest, x.trace.reverse = (reportSavedInfo e).reverse ++ .cmdReport_Save r :: rest ∧
      List.filter isSave rest = []

/-- The receive on the completion channel, the setting of the
show-container-logs flag, the teardown calls, the collected-data check, and
the steps of a classified abort. -/
def isProbeDone : Call → Bool
  | .recv_ContinueChan | .containerInspector_set_DoShowContainerLogs _
  | .containerInspector_FinishMonitoring | .containerInspector_ShutdownContainer
  | .containerInspector_HasCollectedData | .xc_Exit _ => true
  | .OutState name _ => name == "exited"
  | _ => false

/-- The setting of the show-container-logs flag after the probe is done
(handler.go 578-581). -/
def showLogsStep (e : Env) : List Call :=
  if e.probe.CallCount > 0 ∧ e.probe.OkCount = 0 then
    [.containerInspector_set_DoShowContainerLogs true]
  else []

/-- Collaborators that all succeed; the probe has one port, made three calls
and none succeeded. -/
def failedProbeEnv : Env :=
  { FatContainerCmd := ["sh"], HasCollectedData := true,
    probe := { Ports := ["80"], CallCount := 3, OkCount := 0 } }

/-- The exit codes `OnCommand` passes to `xc.Exit`. -/
def exitCodes (e : Env) : List Nat :=
  [e.ECTCommon ||| e.ECNoDockerConnectInfo, e.ECTCommon ||| e.ECBadNetworkName,
   e.ECTBuild ||| ecbBadCustomImageTag, e.ECTBuild ||| ecbImageBuildError,
   e.ECTBuild ||| ecbNoEntrypoint, 1]

/-- The four exit codes of the build category: the category mask combined
with each reason code. -/
def buildExitCodes (e : Env) : List Nat :=
  [e.ECTBuild ||| ecbOther, e.ECTBuild ||| ecbBadCustomImageTag,
   e.ECTBuild ||| ecbImageBuildError, e.ECTBuild ||| ecbNoEntrypoint]

/-- The construction of the fat-image builder and the later steps that carry
the target reference: the construction of the image inspector and the
"target.image" and "target.image.error" info events. -/
def isTargetUse : Call → Bool
  | .builder_NewBasicImageBuilder _ _ => true
  | .image_NewInspector _ => true
  | .OutInfo name _ => name == "target.image" || name == "target.image.error"
  | _ => false

/-- The image reference a step carries. -/
def refOf : Call → Option String
  | .builder_NewBasicImageBuilder tag _ => some tag
  | .image_NewInspector ref => some ref
  | .OutInfo _ vars =>
    match vars.lookup "image" with
    | some (.str s) => some s
    | _ => none
  | _ => none

/-- A Dockerfile-based build with the custom image tag "app:v1" and no
explicit fat tag. -/
def customTagBuildParams : Params :=
  { cbOpts := { Dockerfile := "Dockerfile" }, customImageTag := "app:v1", targetRef := ".",
    continueAfter := { Mode := "enter" } }

/-- The classified aborts of `OnCommand`, one per `xc.Exit` site (the two
network checks share one). -/
inductive Abort where
  | noConnectInfo
  | badCustomTag
  | fatBuildError
  | badNetwork
  | imageNotFound
  | noEntrypoint
  | noProbePorts
  | execFailure
  | noData
  | minBuildError
  | minImageNotFound
  deriving DecidableEq

/-- Whether the variables of an event give `key` the string `value`. -/
def varIs (vars : ovars) (key value : String) : Bool :=
  vars.lookup key == some (.str value)

/-- The abort a step announces: the error, info or state event that
`OnCommand` emits before the "exited" event of each classified abort
(handler.go 117, 173, 220, 254, 272, 304, 410, 465, 599, 617, 669, 696). -/
def abortOf : Call → Option Abort
  | .OutError name _ => if name == "docker.connect.error" then some .noConnectInfo else none
  | .OutState name _ => if name == "http.probe.error" then some .noProbePorts else none
  | .OutInfo name vars =>
    if name == "param.error" && varIs vars "status" "malformed.custom.image.tag" then
      some .badCustomTag
    else if name == "param.error" && (varIs vars "status" "unsupported.network.mac" ||
        varIs vars "status" "unknown.network") then
      some .badNetwork
    else if name == "build.error" && varIs vars "status" "standard.image.build.error" then
      some .fatBuildError
    else if name == "build.error" && varIs vars "status" "optimized.image.build.error" then
      some .minBuildError
    else if name == "target.image.error" && varIs vars "status" "image.not.found" then
      some .imageNotFound
    else if name == "target.image.error" && varIs vars "status" "no.entrypoint.cmd" then
      some .noEntrypoint
    else if name == "continue.after" && varIs vars "message" "fatal: exec cmd failure" then
      some .execFailure
    else if name == "results" &&
        varIs vars "status" "no data collected (no minified image generated)" then
      some .noData
    else if name == "results" && varIs vars "message" "minified image not found" then
      some .minImageNotFound
    else none
  | _ => none

/-- The steps that announce an abort. -/
def isAbortStep (c : Call) : Bool := (abortOf c).isSome

/-- The aborts of the build category. -/
def Abort.isBuild : Abort → Bool
  | .noConnectInfo | .badNetwork | .execFailure => false
  | _ => true

/-- The reason code of an abort of the build category, as the taxonomy of the
specification assigns it: bad-custom-image-tag for the malformed custom tag,
no-entrypoint for the missing entrypoint, image-build-error for the others. -/
def Abort.buildReason : Abort → Nat
  | .badCustomTag => ecbBadCustomImageTag
  | .noEntrypoint => ecbNoEntrypoint
  | _ => ecbImageBuildError

/-- The exit code the taxonomy of the specification assigns to an abort:
category mask OR reason for the common and the build category, the bare 1 for
the exec failure. -/
def taxonomyCode (e : Env) : Abort → Nat
  | .noConnectInfo => e.ECTCommon ||| e.ECNoDockerConnectInfo
  | .badNetwork => e.ECTCommon ||| e.ECBadNetworkName
  | .execFailure => 1
  | a => e.ECTBuild ||| a.buildReason

/-- A session in which the build of the minimized image fails. -/
def minBuildFailEnv : Env :=
  { FatContainerCmd := ["sh"], HasCollectedData := true, builderBuild := some "no space left" }

/-! ## Sequencing lemmas -/

section lemmas
variable {α β γ : Type}

@[simp] theorem after_ok (a : α) (k : α → List Call) : after (.ok a) k = k a := rfl
@[simp] theorem after_halt (o : Outcome) (k : α → List Call) : after (.halt o) k = [] := rfl
@[simp] theorem andThen_ok (a : α) (k : α → Res β) : (Res.ok a).andThen k = k a := rfl
@[simp] theorem andThen_halt (o : Outcome) (k : α → Res β) :
    (Res.halt o : Res α).andThen k = .halt o := rfl
@[simp] theorem after_const_nil (r : Res α) : after r (fun _ => []) = [] := by
  cases r <;> rfl
@[simp] theorem after_ite (c : Prop) [Decidable c] (x y : Res α) (k : α → List Call) :
    after (if c then x else y) k = if c then after x k else after y k := by
  split <;> rfl
@[simp] theorem andThen_ite (c : Prop) [Decidable c] (x y : Res α) (k : α → Res β) :
    (if c then x else y).andThen k = if c then x.andThen k else y.andThen k := by
  split <;> rfl
@[simp] theorem ite_ok_ok (c : Prop) [Decidable c] (a b : α) :
    (if c then Res.ok a else Res.ok b) = Res.ok (if c then a else b) := by
  split <;> rfl

@[simp] theorem pure_trace (a : α) : (pure a : M α).trace = [] := rfl
@[simp] theorem pure_res (a : α) : (pure a : M α).res = .ok a := rfl
@[simp] theorem bind_trace (x : M α) (f : α → M β) :
    (x >>= f).trace = x.trace ++ after x.res (fun a => (f a).trace) := rfl
@[simp] theorem bind_res (x : M α) (f : α → M β) :
    (x >>= f).res = x.res.andThen (fun a => (f a).res) := rfl
@[simp] theorem call_trace (c : Call) : (call c).trace = [c] := rfl
@[simp] theorem call_res (c : Call) : (call c).res = .ok () := rfl
@[simp] theorem xc_Exit_trace (n : Nat) : (xc_Exit n : M α).trace = [.xc_Exit n] := rfl
@[simp] theorem xc_Exit_res (n : Nat) : (xc_Exit n : M α).res = .halt (.exit n) := rfl
@[simp] theorem ite_trace (c : Prop) [Decidable c] (x y : M α) :
    (if c then x else y).trace = if c then x.trace else y.trace := by
  split <;> rfl
@[simp] theorem ite_res (c : Prop) [Decidable c] (x y : M α) :
    (if c then x else y).res = if c then x.res else y.res := by
  split <;> rfl
@[simp] theorem FailOn_trace (err : Option String) : (errutil_FailOn err).trace = [] := by
  cases err <;> rfl
@[simp] theorem FailOn_res (err : Option String) :
    (errutil_FailOn err).res = if err = none then .ok () else .halt (.failure (err.getD "")) := by
  cases err <;> rfl
@[simp] theorem FailWhen_trace (c : Bool) (m : String) : (errutil_FailWhen c m).trace = [] := by
  unfold errutil_FailWhen; split <;> rfl
@[simp] theorem FailWhen_res (c : Bool) (m : String) :
    (errutil_FailWhen c m).res = if c then .halt (.failure m) else .ok () := by
  unfold errutil_FailWhen; split <;> rfl
@[simp] theorem Fail_trace (m : String) : (errutil_Fail m : M α).trace = [] := rfl
@[simp] theorem Fail_res (m : String) : (errutil_Fail m : M α).res = .halt (.failure m) := rfl
@[simp] theorem WarnOn_res (err : Option String) : (errutil_WarnOn err).res = .ok () := by
  cases err <;> rfl
@[simp] theorem WarnOn_trace (err : Option String) :
    (errutil_WarnOn err).trace = if err = none then [] else [.warn (err.getD "")] := by
  cases err <;> rfl
@[simp] theorem forRange_call (xs : List α) (g : α → Call) :
    forRange xs (fun x => call (g x)) = ⟨xs.map g, .ok ()⟩ := by
  induction xs with
  | nil => rfl
  | cons x xs ih =>
    unfold forRange
    show M.bind _ _ = _
    simp [M.bind, ih]

@[simp] theorem filter_after (q : Call → Bool) (r : Res α) (k : α → List Call) :
    List.filter q (after r k) = after r (fun a => List.filter q (k a)) := by
  cases r <;> rfl
@[simp] theorem filter_ite (q : Call → Bool) (c : Prop) [Decidable c] (x y : List Call) :
    List.filter q (if c then x else y) = if c then List.filter q x else List.filter q y := by
  split <;> rfl

@[simp] theorem filter_map_nil (q : Call → Bool) (g : α → Call) (xs : List α)
    (h : ∀ x, q (g x) = false) : List.filter q (List.map g xs) = [] := by
  induction xs with
  | nil => rfl
  | cons x xs ih => simp [List.filter_cons, h, ih]

theorem M_ext (x y : M α) (ht : x.trace = y.trace) (hr : x.res = y.res) : x = y := by
  cases x; cases y; simp_all

theorem M_bind_assoc (x : M α) (f : α → M β) (g : β → M γ) :
    (x >>= f) >>= g = x >>= fun a => f a >>= g := by
  apply M_ext
  · simp only [bind_trace, bind_res]
    cases x.res <;> simp
  · simp only [bind_res]
    cases x.res <;> simp

theorem M_pure_bind (a : α) (f : α → M β) : (pure a : M α) >>= f = f a := by
  apply M_ext <;> simp

end lemmas

/-- `OnCommand` is its three segments in sequence. -/
theorem OnCommand_eq (p : Params) (e : Env) :
    OnCommand p e =
      prepare p e >>= fun x => observe p e x.2 >>= fun _ => minimize p e x.1 := by
  simp only [OnCommand, prepare, observe, minimize, M_bind_assoc, M_pure_bind]

theorem dockerfileInfoEvents_filter (q : Call → Bool)
    (h1 : ∀ v, q (.OutInfo "image.users" v) = false)
    (h2 : ∀ v, q (.OutInfo "image.stack" v) = false)
    (h3 : ∀ v, q (.OutInfo "image.exposed_ports" v) = false)
    (e : Env) (r : BuildCommand) :
    List.filter q (dockerfileInfoEvents e r).trace = [] := by
  unfold dockerfileInfoEvents
  split
  · simp
  · simp only [bind_trace, ite_trace, call_trace, pure_trace, ite_res, call_res, pure_res, bind_res,
      forRange_call, andThen_ok, after_ok, after_ite, andThen_ite, ite_ok_ok, List.filter_append,
      filter_ite, List.filter_cons, h1, h2, h3, List.filter_nil, List.append_nil, ite_self,
      Bool.false_eq_true, if_false]
    simp [h2]

set_option maxHeartbeats 1000000 in
theorem prepare_class (p : Params) (e : Env) :
    List.filter (notIn inPrepare) (prepare p e).trace = [] := by
  simp [prepare, connect, paramsInfo, fatImageBuild, fatImageRepoNameTag, networkCheck,
    imageResolution, imageInspection, dockerfileInfoEvents_filter, inPrepare, notIn]

set_option maxHeartbeats 1000000 in
theorem observe_class (p : Params) (e : Env) (t : String) :
    List.filter (notIn inObserve) (observe p e t).trace = [] := by
  simp [observe, containerLaunch, httpProbeStart, continueAfterWait, execBranch, teardown,
    inObserve, notIn]

set_option maxHeartbeats 1000000 in
theorem minimize_class (p : Params) (e : Env) (r : BuildCommand) :
    List.filter (notIn inMinimize) (minimize p e r).trace = [] := by
  simp [minimize, artifactCheck, minimizedImageBuild, resultVerification, reporting,
    readContainerReport, inMinimize, notIn]

/-! ## Projection of a piece on a class of steps -/

section projlemmas
variable {α β : Type} (q : Call → Bool)

theorem proj_bind (x : M α) (f : α → M β) :
    proj q (x >>= f) = proj q x >>= fun a => proj q (f a) := by
  apply M_ext
  · simp [proj]
  · simp [proj]
theorem proj_ite (c : Prop) [Decidable c] (x y : M α) :
    proj q (if c then x else y) = if c then proj q x else proj q y := by
  split <;> rfl
theorem proj_pure (a : α) : proj q (pure a : M α) = ⟨[], .ok a⟩ := rfl
theorem proj_call (c : Call) : proj q (call c) = ⟨if q c then [c] else [], .ok ()⟩ := by
  simp [proj, List.filter_cons]
theorem proj_xc_Exit (n : Nat) :
    proj q (xc_Exit n : M α) = ⟨if q (.xc_Exit n) then [.xc_Exit n] else [], .halt (.exit n)⟩ := by
  simp [proj, List.filter_cons]
theorem proj_FailOn (err : Option String) :
    proj q (errutil_FailOn err) =
      if err = none then ⟨[], .ok ()⟩ else ⟨[], .halt (.failure (err.getD ""))⟩ := by
  cases err <;> rfl
theorem proj_FailWhen (c : Bool) (m : String) :
    proj q (errutil_FailWhen c m) =
      if c = true then ⟨[], .halt (.failure m)⟩ else ⟨[], .ok ()⟩ := by
  cases c <;> rfl
theorem proj_Fail (m : String) :
    proj q (errutil_Fail m : M α) = ⟨[], .halt (.failure m)⟩ := rfl
theorem proj_WarnOn (err : Option String) :
    proj q (errutil_WarnOn err) =
      ⟨if err = none then [] else if q (.warn (err.getD "")) then [.warn (err.getD "")] else [],
        .ok ()⟩ := by
  cases err <;> simp [proj, errutil_WarnOn, List.filter_cons]
theorem proj_forRange_call (xs : List α) (g : α → Call) :
    proj q (forRange xs (fun x => call (g x))) = ⟨List.filter q (xs.map g), .ok ()⟩ := by
  rw [forRange_call]; rfl
theorem mk_ok_bind (T : List Call) (v : α) (f : α → M β) :
    (⟨T, .ok v⟩ : M α) >>= f = prepend T (f v) := rfl
theorem mk_halt_bind (T : List Call) (o : Outcome) (f : α → M β) :
    (⟨T, .halt o⟩ : M α) >>= f = ⟨T, .halt o⟩ := by
  apply M_ext <;> simp
theorem proj_mk (T : List Call) (r : Res α) :
    proj q (⟨T, r⟩ : M α) = ⟨List.filter q T, r⟩ := rfl
theorem proj_prepend (T : List Call) (x : M α) :
    proj q (prepend T x) = prepend (List.filter q T) (proj q x) := by
  simp [proj, prepend]
theorem ite_bind (c : Prop) [Decidable c] (x y : M α) (f : α → M β) :
    (if c then x else y) >>= f = if c then x >>= f else y >>= f := by
  split <;> rfl
theorem prepend_mk (T T2 : List Call) (r : Res α) :
    prepend T (⟨T2, r⟩ : M α) = ⟨T ++ T2, r⟩ := rfl
theorem prepend_ite (T : List Call) (c : Prop) [Decidable c] (x y : M α) :
    prepend T (if c then x else y) = if c then prepend T x else prepend T y := by
  split <;> rfl
theorem mk_ite_trace (c : Prop) [Decidable c] (T1 T2 : List Call) (r : Res α) :
    (⟨if c then T1 else T2, r⟩ : M α) = if c then ⟨T1, r⟩ else ⟨T2, r⟩ := by
  split <;> rfl
theorem tree_ite (c : Prop) [Decidable c] (x y X : M α) (G : Prop)
    (hx : c → x = X → G) (hy : ¬c → y = X → G) : (if c then x else y) = X → G := by
  split
  · exact hx ‹_›
  · exact hy ‹_›
end projlemmas

/-! ## The Dockerfile-derived info events -/

theorem dockerfileInfoEvents_res (e : Env) (r : BuildCommand) :
    (dockerfileInfoEvents e r).res = .ok (withImageStack e r) := by
  unfold dockerfileInfoEvents withImageStack
  split
  · rfl
  · simp

/-! ## A piece that returns performs no abort step -/

theorem clean_bind {α β : Type} (x : M α) (f : α → M β) (hx : clean x) (hf : ∀ a, clean (f a)) :
    clean (x >>= f) := by
  intro b hb
  simp only [bind_res, bind_trace] at hb ⊢
  rcases hr : x.res with a | o
  · rw [hr] at hb
    simp only [andThen_ok] at hb
    simp [hr, hx a hr, hf a b hb]
  · rw [hr] at hb
    simp at hb

theorem clean_pure {α : Type} (a : α) : clean (pure a : M α) := by
  intro _ _; rfl

theorem connect_clean (p : Params) (e : Env) : clean (connect p e) := by
  intro a
  simp [connect, isTerminal]
  intros
  split_ifs at *
  all_goals simp_all
  
theorem paramsInfo_clean (p : Params) : clean (paramsInfo p) := by
  intro a
  simp [paramsInfo, isTerminal]

theorem fatImageBuild_clean (p : Params) (e : Env) : clean (fatImageBuild p e) := by
  intro a
  simp [fatImageBuild, fatImageRepoNameTag, isTerminal]
  intros
  split_ifs at *
  all_goals simp_all

theorem networkCheck_clean (p : Params) (e : Env) : clean (networkCheck p e) := by
  intro a
  simp [networkCheck, isTerminal]
  intros
  split_ifs at *
  all_goals simp_all

theorem imageResolution_clean (p : Params) (e : Env) (t : String) :
    clean (imageResolution p e t) := by
  intro a
  simp [imageResolution, isTerminal]
  intros
  split_ifs at *
  all_goals simp_all

theorem imageInspection_clean (p : Params) (e : Env) (r : BuildCommand) :
    clean (imageInspection p e r) := by
  intro a
  simp [imageInspection, isTerminal, dockerfileInfoEvents_filter]

theorem prepare_clean (p : Params) (e : Env) : clean (prepare p e) := by
  unfold prepare
  refine clean_bind _ _ (connect_clean p e) (fun r => ?_)
  refine clean_bind _ _ (paramsInfo_clean p) (fun _ => ?_)
  refine clean_bind _ _ (fatImageBuild_clean p e) (fun t => ?_)
  refine clean_bind _ _ (networkCheck_clean p e) (fun _ => ?_)
  refine clean_bind _ _ (imageResolution_clean p e t) (fun _ => ?_)
  refine clean_bind _ _ (imageInspection_clean p e r) (fun r2 => ?_)
  exact clean_pure _

theorem containerLaunch_clean (e : Env) (t : String) : clean (containerLaunch e t) := by
  intro a
  simp [containerLaunch, isTerminal]
  intros
  split_ifs at *
  all_goals simp_all

theorem httpProbeStart_clean (e : Env) (b : Bool) : clean (httpProbeStart e b) := by
  intro a
  simp [httpProbeStart, isTerminal]
  intros
  split_ifs at *
  all_goals simp_all

theorem continueAfterWait_clean (p : Params) (e : Env) (pr : Option CustomProbe) :
    clean (continueAfterWait p e pr) := by
  intro a
  simp [continueAfterWait, execBranch, isTerminal]

theorem teardown_clean (e : Env) (b : Bool) : clean (teardown e b) := by
  intro a
  simp [teardown, isTerminal]

theorem observe_clean (p : Params) (e : Env) (t : String) : clean (observe p e t) := by
  unfold observe
  refine clean_bind _ _ (containerLaunch_clean e t) (fun _ => ?_)
  refine clean_bind _ _ (httpProbeStart_clean e _) (fun pr => ?_)
  refine clean_bind _ _ (continueAfterWait_clean p e pr) (fun b => ?_)
  exact teardown_clean e b

/-! ## Decomposition of a run -/

/-- How a run of `OnCommand` decomposes along its segments. -/
theorem OnCommand_cases (p : Params) (e : Env) :
    (∃ o, (prepare p e).res = .halt o ∧ (OnCommand p e).trace = (prepare p e).trace ∧
        (OnCommand p e).res = .halt o) ∨
    (∃ r t, (prepare p e).res = .ok (r, t) ∧
        (OnCommand p e).trace = (prepare p e).trace ++ ((observe p e t).trace ++
          after (observe p e t).res (fun _ => (minimize p e r).trace)) ∧
        (OnCommand p e).res = (observe p e t).res.andThen (fun _ => (minimize p e r).res)) := by
  rw [OnCommand_eq]
  rcases h : (prepare p e).res with ⟨r, t⟩ | o
  · right
    exact ⟨r, t, rfl, by simp [h], by simp [h]⟩
  · left
    exact ⟨o, rfl, by simp [h], by simp [h]⟩

theorem not_mem_of_class (cls : Call → Bool) (l : List Call) (c : Call)
    (h : List.filter (notIn cls) l = []) (hc : cls c = false) : c ∉ l := by
  intro hm
  have : c ∈ List.filter (notIn cls) l := by
    simp [List.mem_filter, hm, hc, notIn]
  rw [h] at this
  simp at this

theorem filter_nil_of_class (q cls : Call → Bool) (l : List Call)
    (h : List.filter (notIn cls) l = [])
    (ht : List.filter isTerminal l = [])
    (hq : ∀ c, q c = true → cls c = true → isTerminal c = true) : List.filter q l = [] := by
  rw [List.filter_eq_nil_iff] at h ht ⊢
  intro c hc hqc
  have h1 := h c hc
  have h2 := ht c hc
  simp [notIn] at h1
  exact h2 (hq c hqc h1)

/-! ## Focusing a session on one segment -/

theorem count_after_zero {α : Type} (c : Call) (r : Res α) (k : α → List Call)
    (h : ∀ a, c ∉ k a) : List.count c (after r k) = 0 := by
  cases r with
  | ok a => simpa [List.count_eq_zero] using h a
  | halt o => simp

/-- A session that performed a step outside the segment `prepare` got
through that segment, and continues with `observe` and `minimize`. -/
theorem focus_observe (p : Params) (e : Env) (c : Call) (hc : inPrepare c = false)
    (hreach : c ∈ (OnCommand p e).trace) :
    ∃ r t, (prepare p e).res = .ok (r, t) ∧
      (OnCommand p e).trace = (prepare p e).trace ++ ((observe p e t).trace ++
        after (observe p e t).res (fun _ => (minimize p e r).trace)) ∧
      (OnCommand p e).res = (observe p e t).res.andThen (fun _ => (minimize p e r).res) := by
  rcases OnCommand_cases p e with ⟨o, _, ht, _⟩ | h
  · rw [ht] at hreach
    exact absurd hreach (not_mem_of_class inPrepare _ _ (prepare_class p e) hc)
  · exact h

/-- The steps of class `q` of a session that got through `prepare`, when no
step of `prepare` other than those of a classified abort is in `q`. -/
theorem filter_after_prepare (q : Call → Bool) (p : Params) (e : Env) (r : BuildCommand)
    (t : String) (hp : (prepare p e).res = .ok (r, t))
    (ht : (OnCommand p e).trace = (prepare p e).trace ++ ((observe p e t).trace ++
        after (observe p e t).res (fun _ => (minimize p e r).trace)))
    (hq : ∀ c, q c = true → inPrepare c = true → isTerminal c = true) :
    List.filter q (OnCommand p e).trace =
      (proj q (observe p e t)).trace ++
        after (proj q (observe p e t)).res (fun _ => List.filter q (minimize p e r).trace) := by
  rw [ht, List.filter_append, List.filter_append, filter_after,
    filter_nil_of_class q inPrepare _ (prepare_class p e) (prepare_clean p e _ hp) hq]
  rfl

/-- No step of `minimize` is in a class that avoids the steps of `minimize`. -/
theorem filter_minimize_nil (q : Call → Bool) (p : Params) (e : Env) (r : BuildCommand)
    (hq : ∀ c, q c = true → inMinimize c = false) :
    List.filter q (minimize p e r).trace = [] := by
  rw [List.filter_eq_nil_iff]
  intro c hc hqc
  exact not_mem_of_class inMinimize _ c (minimize_class p e r) (hq c hqc) hc

theorem filter_observe_nil (q : Call → Bool) (p : Params) (e : Env) (t : String)
    (hq : ∀ c, q c = true → inObserve c = false) :
    List.filter q (observe p e t).trace = [] := by
  rw [List.filter_eq_nil_iff]
  intro c hc hqc
  exact not_mem_of_class inObserve _ c (observe_class p e t) (hq c hqc) hc

/-- The steps of class `q` and the result of a session that performed a step
`c` of `observe`: the session got through `prepare`, and `c` is a step of
its `observe` segment. -/
theorem observe_focus (q : Call → Bool) (p : Params) (e : Env) (c : Call)
    (hqc : q c = true) (hcP : inPrepare c = false) (hcM : inMinimize c = false)
    (hreach : c ∈ (OnCommand p e).trace)
    (hq : ∀ c, q c = true → inPrepare c = true → isTerminal c = true) :
    ∃ r t, c ∈ (proj q (observe p e t)).trace ∧
      List.filter q (OnCommand p e).trace =
        (proj q (observe p e t)).trace ++
          after (proj q (observe p e t)).res (fun _ => List.filter q (minimize p e r).trace) ∧
      (OnCommand p e).res =
        (proj q (observe p e t)).res.andThen (fun _ => (minimize p e r).res) := by
  obtain ⟨r, t, hp, ht, hr⟩ := focus_observe p e c hcP hreach
  refine ⟨r, t, ?_, filter_after_prepare q p e r t hp ht hq, hr⟩
  rw [ht] at hreach
  simp only [List.mem_append] at hreach
  rcases hreach with h | h | h
  · exact absurd h (not_mem_of_class inPrepare _ c (prepare_class p e) hcP)
  · exact List.mem_filter.mpr ⟨h, hqc⟩
  · exfalso
    rcases hres : (observe p e t).res with a | o
    · rw [hres] at h
      exact not_mem_of_class inMinimize _ c (minimize_class p e r) hcM h
    · rw [hres] at h
      simp at h

/-- The steps of a class that avoids `observe` and `minimize` are those of
`prepare`; a session that `prepare` ends has the steps and the result of
`prepare`. -/
theorem prepare_focus (q : Call → Bool) (p : Params) (e : Env)
    (hqO : ∀ c, q c = true → inObserve c = false)
    (hqM : ∀ c, q c = true → inMinimize c = false) :
    List.filter q (OnCommand p e).trace = (proj q (prepare p e)).trace ∧
    (∀ o, (proj q (prepare p e)).res = .halt o →
      (OnCommand p e).res = .halt o ∧ (OnCommand p e).trace = (prepare p e).trace) := by
  rcases OnCommand_cases p e with ⟨o, hp, ht, hr⟩ | ⟨r, t, hp, ht, hr⟩
  · refine ⟨by rw [ht]; rfl, fun o2 h2 => ?_⟩
    have h3 : (prepare p e).res = .halt o2 := h2
    rw [hp] at h3
    cases h3
    exact ⟨hr, ht⟩
  · refine ⟨?_, fun o2 h2 => ?_⟩
    · rw [ht, List.filter_append, List.filter_append, filter_after,
        filter_observe_nil q p e t hqO, filter_minimize_nil q p e r hqM]
      simp [proj]
    · have h3 : (prepare p e).res = .halt o2 := h2
      rw [hp] at h3
      cases h3

/-- A step that neither `observe` nor `minimize` can perform was performed by
`prepare`. -/
theorem prepare_reach (p : Params) (e : Env) (c : Call)
    (hO : inObserve c = false) (hM : inMinimize c = false)
    (h : c ∈ (OnCommand p e).trace) : c ∈ (prepare p e).trace := by
  rcases OnCommand_cases p e with ⟨o, hp, ht, hr⟩ | ⟨r, t, hp, ht, hr⟩
  · rw [ht] at h
    exact h
  · rw [ht] at h
    simp only [List.mem_append] at h
    rcases h with h | h | h
    · exact h
    · exact absurd h (not_mem_of_class inObserve _ c (observe_class p e t) hO)
    · exfalso
      rcases hres : (observe p e t).res with a | o
      · rw [hres] at h
        exact not_mem_of_class inMinimize _ c (minimize_class p e r) hM h
      · rw [hres] at h
        simp at h

/-- A session that `prepare` ends has the steps and the result of `prepare`. -/
theorem prepare_halt (p : Params) (e : Env) (o : Outcome)
    (h : (prepare p e).res = .halt o) :
    (OnCommand p e).res = .halt o ∧ (OnCommand p e).trace = (prepare p e).trace := by
  rcases OnCommand_cases p e with ⟨o2, hp, ht, hr⟩ | ⟨r, t, hp, ht, hr⟩
  · rw [hp] at h
    cases h
    exact ⟨hr, ht⟩
  · rw [hp] at h
    cases h

/-- The steps of a class that avoids `prepare` and `observe` are those of
`minimize`, if the session gets there. -/
theorem minimize_focus (q : Call → Bool) (p : Params) (e : Env)
    (hqP : ∀ c, q c = true → inPrepare c = false)
    (hqO : ∀ c, q c = true → inObserve c = false) :
    List.filter q (OnCommand p e).trace = [] ∨
    ∃ r, List.filter q (OnCommand p e).trace = (proj q (minimize p e r)).trace ∧
      (OnCommand p e).res = (proj q (minimize p e r)).res := by
  have hP : List.filter q (prepare p e).trace = [] := by
    rw [List.filter_eq_nil_iff]
    intro c hc hqc
    exact not_mem_of_class inPrepare _ c (prepare_class p e) (hqP c hqc) hc
  rcases OnCommand_cases p e with ⟨o, hp, ht, hr⟩ | ⟨r, t, hp, ht, hr⟩
  · left
    rw [ht, hP]
  · rw [ht, List.filter_append, List.filter_append, filter_after, hP,
      filter_observe_nil q p e t hqO, hr]
    rcases hres : (observe p e t).res with a | o
    · right
      exact ⟨r, by simp [proj], rfl⟩
    · left
      simp

theorem filterMap_filter_eq {β : Type} (f : Call → Option β) (q : Call → Bool) (l : List Call)
    (h : ∀ c, q c = false → f c = none) :
    List.filterMap f (List.filter q l) = List.filterMap f l := by
  induction l with
  | nil => rfl
  | cons c l ih =>
    by_cases hq : q c = true
    · simp [List.filter_cons, hq, List.filterMap_cons, ih]
    · have hq2 : q c = false := by simpa using hq
      simp [List.filter_cons, hq2, List.filterMap_cons, ih, h c hq2]

theorem proj_dockerfileInfoEvents (q : Call → Bool)
    (h1 : ∀ v, q (.OutInfo "image.users" v) = false)
    (h2 : ∀ v, q (.OutInfo "image.stack" v) = false)
    (h3 : ∀ v, q (.OutInfo "image.exposed_ports" v) = false)
    (e : Env) (r : BuildCommand) :
    proj q (dockerfileInfoEvents e r) = ⟨[], .ok (withImageStack e r)⟩ := by
  apply M_ext
  · exact dockerfileInfoEvents_filter q h1 h2 h3 e r
  · exact dockerfileInfoEvents_res e r

theorem splitChars_length (sep : Char) (cs : List Char) :
    (splitChars sep cs).length = cs.count sep + 1 := by
  induction cs with
  | nil => rfl
  | cons c cs ih =>
    unfold splitChars
    by_cases h : c = sep
    · simp [h, ih]
    · rw [if_neg h]
      have hc : List.count sep (c :: cs) = List.count sep cs := by
        simp [List.count_cons, h]
      rw [hc, ← ih]
      cases hs : splitChars sep cs with
      | nil => rw [hs] at ih; simp at ih
      | cons part parts => simp

theorem stringsSplit_length (s : String) (sep : Char) :
    (stringsSplit s sep).length = s.toList.count sep + 1 := by
  simp [stringsSplit, splitChars_length]

/-! ## C1 -/

theorem observe_shutdown (p : Params) (e : Env) (t : String)
    (hrun : Call.containerInspector_RunContainer ∈ (proj isLaunchOrTeardown (observe p e t)).trace)
    (hok : e.RunContainer = none) :
    (proj isLaunchOrTeardown (observe p e t)).trace.count .containerInspector_ShutdownContainer ≤ 1 ∧
    ((∀ msg, (proj isLaunchOrTeardown (observe p e t)).res ≠ .halt (.failure msg)) →
      (proj isLaunchOrTeardown (observe p e t)).trace.count .containerInspector_ShutdownContainer = 1) ∧
    (Call.containerInspector_FinishMonitoring ∈ (proj isLaunchOrTeardown (observe p e t)).trace →
      (proj isLaunchOrTeardown (observe p e t)).trace.count .containerInspector_ShutdownContainer = 1) := by
  generalize hX : proj isLaunchOrTeardown (observe p e t) = X at *
  simp [observe, containerLaunch, httpProbeStart, continueAfterWait, execBranch, teardown,
    isLaunchOrTeardown, hok, proj_bind, proj_ite, proj_pure, proj_call, proj_xc_Exit, proj_FailOn,
    proj_FailWhen, proj_Fail, proj_WarnOn, proj_forRange_call, proj_mk, proj_prepend, M_pure_bind,
    mk_ok_bind, mk_halt_bind, ite_bind, prepend_mk, prepend_ite, mk_ite_trace] at hX
  revert hrun
  revert X
  intro X
  repeat' (apply tree_ite <;> intro _)
  all_goals (intro hX; subst hX; simp)

/-- C1 (counterexample): with an unknown continue-after mode the container is
launched successfully and the process is terminated by `errutil.Fail` without
any call of `ShutdownContainer`. -/
theorem C1_shutdown_missed_on_fatal :
    Call.containerInspector_RunContainer ∈ (OnCommand unknownModeParams healthyEnv).trace ∧
    healthyEnv.RunContainer = none ∧
    (OnCommand unknownModeParams healthyEnv).res = .halt (.failure "unknown continue-after mode") ∧
    (OnCommand unknownModeParams healthyEnv).trace.count .containerInspector_ShutdownContainer = 0 := by
  decide

/-- C1 (amended): in every session in which `RunContainer` succeeds,
`ShutdownContainer` is invoked at most once; it is invoked exactly once
whenever the session ends by returning or through `xc.Exit` (every classified
abort), and whenever monitoring was finished before the session ended
(which covers every termination, fatal or not, after teardown). -/
theorem C1_shutdown_once (p : Params) (e : Env)
    (hrun : Call.containerInspector_RunContainer ∈ (OnCommand p e).trace)
    (hok : e.RunContainer = none) :
    (OnCommand p e).trace.count .containerInspector_ShutdownContainer ≤ 1 ∧
    ((∀ msg, (OnCommand p e).res ≠ .halt (.failure msg)) →
      (OnCommand p e).trace.count .containerInspector_ShutdownContainer = 1) ∧
    (Call.containerInspector_FinishMonitoring ∈ (OnCommand p e).trace →
      (OnCommand p e).trace.count .containerInspector_ShutdownContainer = 1) := by
  obtain ⟨r, t, hp, ht, hr⟩ :=
    focus_observe p e Call.containerInspector_RunContainer rfl hrun
  have hf := filter_after_prepare isLaunchOrTeardown p e r t hp ht
    (by intro c; cases c <;> simp [isLaunchOrTeardown, inPrepare])
  rw [filter_minimize_nil isLaunchOrTeardown p e r
    (by intro c; cases c <;> simp [isLaunchOrTeardown, inMinimize])] at hf
  simp only [after_const_nil, List.append_nil] at hf
  have hrun2 : Call.containerInspector_RunContainer ∈
      List.filter isLaunchOrTeardown (OnCommand p e).trace := List.mem_filter.mpr ⟨hrun, rfl⟩
  rw [← List.count_filter (p := isLaunchOrTeardown) (l := (OnCommand p e).trace)
    (a := Call.containerInspector_ShutdownContainer) rfl]
  rw [hf] at hrun2 ⊢
  obtain ⟨h1, h2, h3⟩ := observe_shutdown p e t hrun2 hok
  refine ⟨h1, fun hnf => h2 (fun msg hmsg => hnf msg ?_), fun hfm => h3 ?_⟩
  · rw [hr]
    have : (observe p e t).res = .halt (.failure msg) := hmsg
    rw [this]
    rfl
  · rw [← hf]
    exact List.mem_filter.mpr ⟨hfm, rfl⟩

/-- Witness of C1: an exec-mode session whose command fails still shuts the
container down exactly once. -/
theorem C1_shutdown_once_witness :
    Call.containerInspector_RunContainer ∈ (OnCommand execParams execFailEnv).trace ∧
    (OnCommand execParams execFailEnv).trace.count .containerInspector_ShutdownContainer = 1 :=
  ⟨by decide,
    (C1_shutdown_once execParams execFailEnv (by decide) rfl).2.1
      (by
        intro msg h
        have h1 : (OnCommand execParams execFailEnv).res = .halt (.exit 1) := by decide
        rw [h1] at h
        cases h)⟩

/-! ## C2 -/

theorem observe_zero_ports (p : Params) (e : Env) (t : String)
    (hrun : Call.containerInspector_RunContainer ∈ (proj isProbeOrWait (observe p e t)).trace)
    (hok : e.RunContainer = none)
    (hprobe : p.continueAfter.Mode = "probe" ∨ p.doHTTPProbe = true)
    (hnew : e.NewCustomProbe = none) (hports : e.probe.Ports = []) :
    proj isProbeOrWait (observe p e t) =
      ⟨[.containerInspector_RunContainer, .http_NewCustomProbe,
        .containerInspector_FinishMonitoring, .containerInspector_ShutdownContainer,
        .OutState "exited" [("exit.code", .int (e.ECTBuild ||| ecbImageBuildError : Nat))],
        .xc_Exit (e.ECTBuild ||| ecbImageBuildError)],
       .halt (.exit (e.ECTBuild ||| ecbImageBuildError))⟩ := by
  have hforce : forceHTTPProbe p = true := by
    unfold forceHTTPProbe
    rcases hprobe with h | h
    · simp [h]
    · simp [h]
  generalize hX : proj isProbeOrWait (observe p e t) = X at *
  simp [observe, containerLaunch, httpProbeStart, continueAfterWait, execBranch, teardown,
    isProbeOrWait, hok, hforce, hnew, hports, proj_bind, proj_ite, proj_pure, proj_call, proj_xc_Exit, proj_FailOn,
    proj_FailWhen, proj_Fail, proj_WarnOn, proj_forRange_call, proj_mk, proj_prepend, M_pure_bind,
    mk_ok_bind, mk_halt_bind, ite_bind, prepend_mk, prepend_ite, mk_ite_trace] at hX
  revert hrun
  revert X
  intro X
  repeat' (apply tree_ite <;> intro _)
  all_goals (intro hX; subst hX; simp)

/-- C3: when HTTP probing is on (probe mode, or probing requested) and the
constructed probe has no ports, the session finishes monitoring, shuts the
container down and terminates with `ECTBuild | ecbImageBuildError`; the probe
is not started, no completion channel is assigned and no continue-after
branch is entered. -/
theorem C3_zero_ports_abort (p : Params) (e : Env)
    (hrun : Call.containerInspector_RunContainer ∈ (OnCommand p e).trace)
    (hok : e.RunContainer = none)
    (hprobe : p.continueAfter.Mode = "probe" ∨ p.doHTTPProbe = true)
    (hnew : e.NewCustomProbe = none) (hports : e.probe.Ports = []) :
    (OnCommand p e).res = .halt (.exit (e.ECTBuild ||| ecbImageBuildError)) ∧
    List.filter isProbeOrWait (OnCommand p e).trace =
      [.containerInspector_RunContainer, .http_NewCustomProbe,
        .containerInspector_FinishMonitoring, .containerInspector_ShutdownContainer,
        .OutState "exited" [("exit.code", .int (e.ECTBuild ||| ecbImageBuildError : Nat))],
        .xc_Exit (e.ECTBuild ||| ecbImageBuildError)] := by
  obtain ⟨r, t, hmem, hf, hr⟩ := observe_focus isProbeOrWait p e
    Call.containerInspector_RunContainer rfl rfl rfl hrun
    (by intro c h1 h2; cases c <;> simp_all [isProbeOrWait, inPrepare, isTerminal])
  rw [observe_zero_ports p e t hmem hok hprobe hnew hports] at hf hr
  exact ⟨hr, hf⟩

/-- Witness of C3: probe mode against a container without exposed ports. -/
theorem C3_zero_ports_abort_witness :
    Call.containerInspector_RunContainer ∈ (OnCommand probeParams healthyEnv).trace ∧
    (OnCommand probeParams healthyEnv).res =
      .halt (.exit (healthyEnv.ECTBuild ||| ecbImageBuildError)) ∧
    List.filter isProbeOrWait (OnCommand probeParams healthyEnv).trace =
      [.containerInspector_RunContainer, .http_NewCustomProbe,
        .containerInspector_FinishMonitoring, .containerInspector_ShutdownContainer,
        .OutState "exited"
          [("exit.code", .int (healthyEnv.ECTBuild ||| ecbImageBuildError : Nat))],
        .xc_Exit (healthyEnv.ECTBuild ||| ecbImageBuildError)] :=
  ⟨by decide,
    C3_zero_ports_abort probeParams healthyEnv (by decide) rfl (Or.inl rfl) rfl rfl⟩

/-! ## C4 -/

theorem prepare_malformed_tag (p : Params) (e : Env)
    (hreach : Call.OutState "started" [] ∈ (proj isFatBuild (prepare p e)).trace)
    (hdf : p.cbOpts.Dockerfile ≠ "") (htag : p.cbOpts.Tag = "")
    (hne : p.customImageTag ≠ "")
    (h1 : (stringsSplit p.customImageTag ':').length ≠ 1)
    (h2 : (stringsSplit p.customImageTag ':').length ≠ 2) :
    proj isFatBuild (prepare p e) =
      ⟨[.OutState "started" []], .halt (.exit (e.ECTBuild ||| ecbBadCustomImageTag))⟩ := by
  generalize hX : proj isFatBuild (prepare p e) = X at *
  simp [prepare, connect, paramsInfo, fatImageBuild, fatImageRepoNameTag, networkCheck,
    imageResolution, imageInspection, proj_dockerfileInfoEvents,
    isFatBuild, hdf, htag, hne, h1, h2, proj_bind, proj_ite, proj_pure, proj_call, proj_xc_Exit,
    proj_FailOn, proj_FailWhen, proj_Fail, proj_WarnOn, proj_forRange_call, proj_mk, proj_prepend,
    M_pure_bind, mk_ok_bind, mk_halt_bind, ite_bind, prepend_mk, prepend_ite, mk_ite_trace] at hX
  revert hreach
  revert X
  intro X
  repeat' (apply tree_ite <;> intro _)
  all_goals (intro hX; subst hX; simp)

/-- C4 (counterexample): with an explicit fat-image tag the custom image tag
is not examined by the fat-image stage; the fat-image builder is constructed
and run although the custom tag has three parts. -/
theorem C4_explicit_fat_tag_builds :
    explicitFatTagParams.cbOpts.Dockerfile ≠ "" ∧
    2 ≤ explicitFatTagParams.customImageTag.toList.count ':' ∧
    Call.builder_NewBasicImageBuilder "fat:1" "" ∈
      (OnCommand explicitFatTagParams healthyEnv).trace ∧
    Call.fatBuilder_Build ∈ (OnCommand explicitFatTagParams healthyEnv).trace ∧
    (OnCommand explicitFatTagParams healthyEnv).res ≠
      .halt (.exit (healthyEnv.ECTBuild ||| ecbBadCustomImageTag)) := by
  decide

/-- C4 (amended): in a Dockerfile-based build without an explicit fat-image
tag, a custom image tag with more than one `:` ends the started session with
`ECTBuild | ecbBadCustomImageTag`; the fat-image builder is neither
constructed nor run. -/
theorem C4_malformed_custom_tag (p : Params) (e : Env)
    (hreach : Call.OutState "started" [] ∈ (OnCommand p e).trace)
    (hdf : p.cbOpts.Dockerfile ≠ "") (htag : p.cbOpts.Tag = "")
    (hmal : 2 ≤ p.customImageTag.toList.count ':') :
    (OnCommand p e).res = .halt (.exit (e.ECTBuild ||| ecbBadCustomImageTag)) ∧
    (∀ tag ref, Call.builder_NewBasicImageBuilder tag ref ∉ (OnCommand p e).trace) ∧
    Call.fatBuilder_Build ∉ (OnCommand p e).trace := by
  have hlen := stringsSplit_length p.customImageTag ':'
  have hne : p.customImageTag ≠ "" := by
    intro h
    rw [h] at hmal
    simp at hmal
  obtain ⟨hf, hh⟩ := prepare_focus isFatBuild p e
    (by intro c h1; cases c <;> simp_all [isFatBuild, inObserve])
    (by intro c h1; cases c <;> simp_all [isFatBuild, inMinimize])
  have hmem : Call.OutState "started" [] ∈ List.filter isFatBuild (OnCommand p e).trace :=
    List.mem_filter.mpr ⟨hreach, rfl⟩
  rw [hf] at hmem
  have hX := prepare_malformed_tag p e hmem hdf htag hne (by omega) (by omega)
  rw [hX] at hf
  refine ⟨(hh _ (by rw [hX])).1, fun tag ref hm => ?_, fun hm => ?_⟩
  · have : Call.builder_NewBasicImageBuilder tag ref ∈
        List.filter isFatBuild (OnCommand p e).trace := List.mem_filter.mpr ⟨hm, rfl⟩
    rw [hf] at this
    simp at this
  · have : Call.fatBuilder_Build ∈
        List.filter isFatBuild (OnCommand p e).trace := List.mem_filter.mpr ⟨hm, rfl⟩
    rw [hf] at this
    simp at this

/-- Witness of C4: the custom tag `a:b:c` without an explicit fat tag. -/
theorem C4_malformed_custom_tag_witness :
    Call.OutState "started" [] ∈ (OnCommand malformedTagParams healthyEnv).trace ∧
    (OnCommand malformedTagParams healthyEnv).res =
      .halt (.exit (healthyEnv.ECTBuild ||| ecbBadCustomImageTag)) ∧
    Call.fatBuilder_Build ∉ (OnCommand malformedTagParams healthyEnv).trace :=
  ⟨by decide,
    (C4_malformed_custom_tag malformedTagParams healthyEnv (by decide) (by decide) rfl
      (by decide)).1,
    (C4_malformed_custom_tag malformedTagParams healthyEnv (by decide) (by decide) rfl
      (by decide)).2.2⟩

/-! ## C5 -/

/-- C5: in a session that constructed the container inspector, an empty
resolved command (`FatContainerCmd`) ends the session with
`ECTBuild | ecbNoEntrypoint`, whose reason code is 4 (neither the generic
reason 1 nor the image-build-error reason 3), and `RunContainer` is never
invoked. -/
theorem C5_no_entrypoint (p : Params) (e : Env)
    (hreach : Call.container_NewInspector ∈ (OnCommand p e).trace)
    (hnew : e.containerNewInspector = none)
    (hcmd : e.FatContainerCmd = []) :
    (OnCommand p e).res = .halt (.exit (e.ECTBuild ||| ecbNoEntrypoint)) ∧
    ecbNoEntrypoint = 4 ∧ ecbNoEntrypoint ≠ ecbOther ∧ ecbNoEntrypoint ≠ ecbImageBuildError ∧
    Call.containerInspector_RunContainer ∉ (OnCommand p e).trace := by
  obtain ⟨r, t, hp, ht, hr⟩ := focus_observe p e Call.container_NewInspector rfl hreach
  have hres : (observe p e t).res = .halt (.exit (e.ECTBuild ||| ecbNoEntrypoint)) := by
    simp [observe, containerLaunch, hnew, hcmd]
  have htr : Call.containerInspector_RunContainer ∉ (observe p e t).trace := by
    simp [observe, containerLaunch, hnew, hcmd]
  refine ⟨by rw [hr, hres]; rfl, rfl, by decide, by decide, ?_⟩
  rw [ht, hres]
  simp [htr, not_mem_of_class inPrepare _ Call.containerInspector_RunContainer
    (prepare_class p e) rfl]

/-- Witness of C5: an image without entrypoint and command. -/
theorem C5_no_entrypoint_witness :
    Call.container_NewInspector ∈ (OnCommand enterParams noCmdEnv).trace ∧
    (OnCommand enterParams noCmdEnv).res =
      .halt (.exit (noCmdEnv.ECTBuild ||| ecbNoEntrypoint)) ∧
    Call.containerInspector_RunContainer ∉ (OnCommand enterParams noCmdEnv).trace :=
  ⟨by decide,
    (C5_no_entrypoint enterParams noCmdEnv (by decide) rfl rfl).1,
    (C5_no_entrypoint enterParams noCmdEnv (by decide) rfl rfl).2.2.2.2⟩

/-! ## C6 -/

theorem prepare_bad_network (p : Params) (e : Env)
    (hreach : networkCheckLog ∈ (proj isImageOp (prepare p e)).trace)
    (hrej : (p.overrides.Network = "host" ∧ e.GOOS = "darwin") ∨
      e.ConfirmNetwork p.overrides.Network = false) :
    proj isImageOp (prepare p e) =
      ⟨(if p.cbOpts.Dockerfile ≠ "" then [.fatBuilder_Build] else []) ++ [networkCheckLog],
        .halt (.exit (e.ECTCommon ||| e.ECBadNetworkName))⟩ := by
  generalize hX : proj isImageOp (prepare p e) = X at *
  simp [prepare, connect, paramsInfo, fatImageBuild, fatImageRepoNameTag, networkCheck,
    imageResolution, imageInspection, proj_dockerfileInfoEvents,
    isImageOp, proj_bind, proj_ite, proj_pure, proj_call, proj_xc_Exit,
    proj_FailOn, proj_FailWhen, proj_Fail, proj_WarnOn, proj_forRange_call, proj_mk, proj_prepend,
    M_pure_bind, mk_ok_bind, mk_halt_bind, ite_bind, prepend_mk, prepend_ite, mk_ite_trace] at hX
  revert hreach
  revert X
  intro X
  repeat' (apply tree_ite <;> intro _)
  all_goals (intro hX; subst hX; simp_all [networkCheckLog])

/-- C6 (counterexample): host networking on darwin in a Dockerfile-based
build is rejected with `ECTCommon | ECBadNetworkName`, but only after the fat
image has been built. -/
theorem C6_fat_image_built_before_network_check :
    hostNetworkBuildParams.overrides.Network = "host" ∧ darwinEnv.GOOS = "darwin" ∧
    (OnCommand hostNetworkBuildParams darwinEnv).res =
      .halt (.exit (darwinEnv.ECTCommon ||| darwinEnv.ECBadNetworkName)) ∧
    Call.fatBuilder_Build ∈ (OnCommand hostNetworkBuildParams darwinEnv).trace := by
  decide

/-- C6 (amended): a session that reaches the network validation and whose
network is rejected (host on darwin, or not confirmed by `ConfirmNetwork`)
ends with `ECTCommon | ECBadNetworkName`; no image inspector was constructed
and no presence check, pull or inspect was made; the fat image was built
exactly when a Dockerfile-based build was requested, and then before the
validation. -/
theorem C6_bad_network_before_image (p : Params) (e : Env)
    (hreach : networkCheckLog ∈ (OnCommand p e).trace)
    (hrej : (p.overrides.Network = "host" ∧ e.GOOS = "darwin") ∨
      e.ConfirmNetwork p.overrides.Network = false) :
    (OnCommand p e).res = .halt (.exit (e.ECTCommon ||| e.ECBadNetworkName)) ∧
    List.filter isImageOp (OnCommand p e).trace =
      (if p.cbOpts.Dockerfile ≠ "" then [.fatBuilder_Build] else []) ++ [networkCheckLog] := by
  have hmem : networkCheckLog ∈ (proj isImageOp (prepare p e)).trace :=
    List.mem_filter.mpr ⟨prepare_reach p e networkCheckLog rfl rfl hreach, rfl⟩
  have hX := prepare_bad_network p e hmem hrej
  have hres : (prepare p e).res = .halt (.exit (e.ECTCommon ||| e.ECBadNetworkName)) := by
    have : (proj isImageOp (prepare p e)).res = _ := congrArg M.res hX
    exact this
  obtain ⟨hr, ht⟩ := prepare_halt p e _ hres
  refine ⟨hr, ?_⟩
  rw [ht]
  exact congrArg M.trace hX

/-- Witness of C6: host networking on darwin without a Dockerfile. -/
theorem C6_bad_network_before_image_witness :
    networkCheckLog ∈ (OnCommand hostNetworkParams darwinEnv).trace ∧
    (OnCommand hostNetworkParams darwinEnv).res =
      .halt (.exit (darwinEnv.ECTCommon ||| darwinEnv.ECBadNetworkName)) ∧
    List.filter isImageOp (OnCommand hostNetworkParams darwinEnv).trace =
      [networkCheckLog] :=
  ⟨by decide,
    C6_bad_network_before_image hostNetworkParams darwinEnv (by decide) (Or.inl ⟨rfl, rfl⟩)⟩

/-! ## C7 -/

theorem minimize_no_data (p : Params) (e : Env) (r : BuildCommand) :
    (e.HasCollectedData = false →
      proj isMinBuild (minimize p e r) =
        ⟨[.containerInspector_HasCollectedData],
          .halt (.exit (e.ECTBuild ||| ecbImageBuildError))⟩) ∧
    (Call.builder_Build ∈ (proj isMinBuild (minimize p e r)).trace →
      e.HasCollectedData = true) ∧
    (∀ tag loc, Call.builder_NewImageBuilder tag loc ∈ (proj isMinBuild (minimize p e r)).trace →
      e.HasCollectedData = true) := by
  generalize hX : proj isMinBuild (minimize p e r) = X at *
  simp [minimize, artifactCheck, minimizedImageBuild, resultVerification, reporting,
    readContainerReport, isMinBuild, proj_bind, proj_ite, proj_pure, proj_call, proj_xc_Exit,
    proj_FailOn, proj_FailWhen, proj_Fail, proj_WarnOn, proj_forRange_call, proj_mk, proj_prepend,
    M_pure_bind, mk_ok_bind, mk_halt_bind, ite_bind, prepend_mk, prepend_ite, mk_ite_trace] at hX
  revert X
  intro X
  repeat' (apply tree_ite <;> intro _)
  all_goals (intro hX; subst hX; simp_all)

/-- C8: in a session that reaches the collected-data check (teardown done,
no exec failure), when no data was collected the session ends with
`ECTBuild | ecbImageBuildError` and the minimized-image builder is neither
constructed nor run; the builder is constructed or run only when
`HasCollectedData` returned true. -/
theorem C8_no_data_no_build (p : Params) (e : Env)
    (hreach : Call.containerInspector_HasCollectedData ∈ (OnCommand p e).trace) :
    (e.HasCollectedData = false →
      (OnCommand p e).res = .halt (.exit (e.ECTBuild ||| ecbImageBuildError)) ∧
      List.filter isMinBuild (OnCommand p e).trace = [.containerInspector_HasCollectedData]) ∧
    (Call.builder_Build ∈ (OnCommand p e).trace → e.HasCollectedData = true) ∧
    (∀ tag loc, Call.builder_NewImageBuilder tag loc ∈ (OnCommand p e).trace →
      e.HasCollectedData = true) := by
  have hmem : ∀ c, isMinBuild c = true → c ∈ (OnCommand p e).trace →
      c ∈ List.filter isMinBuild (OnCommand p e).trace :=
    fun c hc h => List.mem_filter.mpr ⟨h, hc⟩
  rcases minimize_focus isMinBuild p e
    (by intro c h1; cases c <;> simp_all [isMinBuild, inPrepare])
    (by intro c h1; cases c <;> simp_all [isMinBuild, inObserve]) with h | ⟨r, hf, hr⟩
  · have := hmem Call.containerInspector_HasCollectedData rfl hreach
    rw [h] at this
    simp at this
  · obtain ⟨h1, h2, h3⟩ := minimize_no_data p e r
    refine ⟨fun hd => ?_, fun hb => ?_, fun tag loc hb => ?_⟩
    · have hX := h1 hd
      rw [hX] at hf hr
      exact ⟨hr, hf⟩
    · apply h2
      rw [← hf]
      exact hmem Call.builder_Build rfl hb
    · apply h3 tag loc
      rw [← hf]
      exact hmem (Call.builder_NewImageBuilder tag loc) rfl hb

/-- Witness of C8: a session in which no data was collected. -/
theorem C8_no_data_no_build_witness :
    Call.containerInspector_HasCollectedData ∈ (OnCommand enterParams noDataEnv).trace ∧
    (OnCommand enterParams noDataEnv).res =
      .halt (.exit (noDataEnv.ECTBuild ||| ecbImageBuildError)) ∧
    List.filter isMinBuild (OnCommand enterParams noDataEnv).trace =
      [.containerInspector_HasCollectedData] :=
  ⟨by decide, (C8_no_data_no_build enterParams noDataEnv (by decide)).1 rfl⟩

/-! ## C9 -/

theorem observe_dispatch (p : Params) (e : Env) (t : String)
    (hreach : continueAfterAnnounce p ∈ (proj isWaitOrAnnounce (observe p e t)).trace) :
    (p.continueAfter.Mode = "enter" →
      (proj isWaitOrAnnounce (observe p e t)).trace.filterMap waitOf = [.lineRead]) ∧
    (p.continueAfter.Mode = "exec" →
      (proj isWaitOrAnnounce (observe p e t)).trace.filterMap waitOf = [.execution]) ∧
    (p.continueAfter.Mode = "signal" →
      (proj isWaitOrAnnounce (observe p e t)).trace.filterMap waitOf = [.chanRecv]) ∧
    (p.continueAfter.Mode = "timeout" →
      (proj isWaitOrAnnounce (observe p e t)).trace.filterMap waitOf = [.timer]) ∧
    (p.continueAfter.Mode = "probe" →
      (proj isWaitOrAnnounce (observe p e t)).trace.filterMap waitOf = [.chanRecv]) ∧
    (p.continueAfter.Mode ≠ "enter" → p.continueAfter.Mode ≠ "exec" →
      p.continueAfter.Mode ≠ "signal" → p.continueAfter.Mode ≠ "timeout" →
      p.continueAfter.Mode ≠ "probe" →
      (proj isWaitOrAnnounce (observe p e t)).trace.filterMap waitOf = [] ∧
      (proj isWaitOrAnnounce (observe p e t)).res =
        .halt (.failure "unknown continue-after mode")) := by
  generalize hX : proj isWaitOrAnnounce (observe p e t) = X at *
  simp [observe, containerLaunch, httpProbeStart, continueAfterWait, execBranch, teardown,
    isWaitOrAnnounce, proj_bind, proj_ite, proj_pure, proj_call, proj_xc_Exit, proj_FailOn,
    proj_FailWhen, proj_Fail, proj_WarnOn, proj_forRange_call, proj_mk, proj_prepend, M_pure_bind,
    mk_ok_bind, mk_halt_bind, ite_bind, prepend_mk, prepend_ite, mk_ite_trace] at hX
  revert hreach
  revert X
  intro X
  repeat' (apply tree_ite <;> intro _)
  all_goals (intro hX; subst hX; simp_all [continueAfterAnnounce, waitOf])

/-- C9: in a session that reaches the continue-after switch (the
"continue.after" event of handler.go 496 was printed), exactly one wait is
started and it is the one of the mode: line read for enter, in-container
execution for exec, receive on the completion channel for signal and for
probe, timer for timeout; for any other mode string no wait is started and
the session ends with the fatal failure "unknown continue-after mode". -/
theorem C9_continue_after_dispatch (p : Params) (e : Env)
    (hreach : continueAfterAnnounce p ∈ (OnCommand p e).trace) :
    (p.continueAfter.Mode = "enter" →
      (OnCommand p e).trace.filterMap waitOf = [.lineRead]) ∧
    (p.continueAfter.Mode = "exec" →
      (OnCommand p e).trace.filterMap waitOf = [.execution]) ∧
    (p.continueAfter.Mode = "signal" →
      (OnCommand p e).trace.filterMap waitOf = [.chanRecv]) ∧
    (p.continueAfter.Mode = "timeout" →
      (OnCommand p e).trace.filterMap waitOf = [.timer]) ∧
    (p.continueAfter.Mode = "probe" →
      (OnCommand p e).trace.filterMap waitOf = [.chanRecv]) ∧
    (p.continueAfter.Mode ≠ "enter" → p.continueAfter.Mode ≠ "exec" →
      p.continueAfter.Mode ≠ "signal" → p.continueAfter.Mode ≠ "timeout" →
      p.continueAfter.Mode ≠ "probe" →
      (OnCommand p e).trace.filterMap waitOf = [] ∧
      (OnCommand p e).res = .halt (.failure "unknown continue-after mode")) := by
  obtain ⟨r, t, hmem, hf, hr⟩ := observe_focus isWaitOrAnnounce p e
    (continueAfterAnnounce p) rfl rfl rfl hreach
    (by intro c h1 h2; cases c <;> simp_all [isWaitOrAnnounce, inPrepare, isTerminal])
  rw [filter_minimize_nil isWaitOrAnnounce p e r
    (by intro c h1; cases c <;> simp_all [isWaitOrAnnounce, inMinimize])] at hf
  simp only [after_const_nil, List.append_nil] at hf
  have hfm : (OnCommand p e).trace.filterMap waitOf =
      (proj isWaitOrAnnounce (observe p e t)).trace.filterMap waitOf := by
    rw [← hf]
    exact (filterMap_filter_eq waitOf isWaitOrAnnounce _
      (by intro c h; cases c <;> simp_all [isWaitOrAnnounce, waitOf])).symm
  rw [hfm]
  obtain ⟨h1, h2, h3, h4, h5, h6⟩ := observe_dispatch p e t hmem
  refine ⟨h1, h2, h3, h4, h5, fun a b c d f => ?_⟩
  obtain ⟨h7, h8⟩ := h6 a b c d f
  refine ⟨h7, ?_⟩
  rw [hr, h8]
  rfl

/-- Witness of C9: a session in exec mode reaches the switch and starts the
in-container execution, and nothing else. -/
theorem C9_continue_after_dispatch_witness :
    continueAfterAnnounce execParams ∈ (OnCommand execParams execFailEnv).trace ∧
    (OnCommand execParams execFailEnv).trace.filterMap waitOf = [.execution] :=
  ⟨by decide, (C9_continue_after_dispatch execParams execFailEnv (by decide)).2.1 rfl⟩

/-! ## C10 -/

theorem observe_probe_iff (p : Params) (e : Env) (t : String)
    (hrun : Call.containerInspector_RunContainer ∈ (proj isLaunchOrProbe (observe p e t)).trace)
    (hok : e.RunContainer = none) :
    (proj isLaunchOrProbe (observe p e t)).trace.count .http_NewCustomProbe =
      (if forceHTTPProbe p = true then 1 else 0) ∧
    (Call.probe_Start ∈ (proj isLaunchOrProbe (observe p e t)).trace →
      forceHTTPProbe p = true) := by
  generalize hX : proj isLaunchOrProbe (observe p e t) = X at *
  simp [observe, containerLaunch, httpProbeStart, continueAfterWait, execBranch, teardown,
    isLaunchOrProbe, hok, proj_bind, proj_ite, proj_pure, proj_call, proj_xc_Exit, proj_FailOn,
    proj_FailWhen, proj_Fail, proj_WarnOn, proj_forRange_call, proj_mk, proj_prepend, M_pure_bind,
    mk_ok_bind, mk_halt_bind, ite_bind, prepend_mk, prepend_ite, mk_ite_trace] at hX
  revert hrun
  revert X
  intro X
  repeat' (apply tree_ite <;> intro _)
  all_goals (intro hX; subst hX; simp_all)

/-- C10: in a session whose container was launched, an HTTP probe is
constructed if and only if the continue-after mode is probe or probing was
requested; it is constructed at most once, and no probe is started
otherwise. -/
theorem C10_probe_iff_requested (p : Params) (e : Env)
    (hrun : Call.containerInspector_RunContainer ∈ (OnCommand p e).trace)
    (hok : e.RunContainer = none) :
    (Call.http_NewCustomProbe ∈ (OnCommand p e).trace ↔
      (p.continueAfter.Mode = "probe" ∨ p.doHTTPProbe = true)) ∧
    (OnCommand p e).trace.count .http_NewCustomProbe ≤ 1 ∧
    (Call.probe_Start ∈ (OnCommand p e).trace →
      (p.continueAfter.Mode = "probe" ∨ p.doHTTPProbe = true)) := by
  obtain ⟨r, t, hmem, hf, hr⟩ := observe_focus isLaunchOrProbe p e
    Call.containerInspector_RunContainer rfl rfl rfl hrun
    (by intro c h1 h2; cases c <;> simp_all [isLaunchOrProbe, inPrepare, isTerminal])
  rw [filter_minimize_nil isLaunchOrProbe p e r
    (by intro c; cases c <;> simp [isLaunchOrProbe, inMinimize])] at hf
  simp only [after_const_nil, List.append_nil] at hf
  obtain ⟨h1, h2⟩ := observe_probe_iff p e t hmem hok
  have hforce : forceHTTPProbe p = true ↔
      (p.continueAfter.Mode = "probe" ∨ p.doHTTPProbe = true) := by
    unfold forceHTTPProbe
    by_cases h : "probe" = p.continueAfter.Mode
    · rw [if_pos h]
      exact ⟨fun _ => Or.inl h.symm, fun _ => rfl⟩
    · rw [if_neg h]
      exact ⟨fun h2 => Or.inr h2, fun h2 => h2.resolve_left (fun h3 => h h3.symm)⟩
  have hc : (OnCommand p e).trace.count .http_NewCustomProbe =
      (if forceHTTPProbe p = true then 1 else 0) := by
    rw [← List.count_filter (p := isLaunchOrProbe) (l := (OnCommand p e).trace)
      (a := Call.http_NewCustomProbe) rfl, hf, h1]
  refine ⟨?_, ?_, ?_⟩
  · rw [← List.count_pos_iff, hc, ← hforce]
    split_ifs <;> simp_all
  · rw [hc]
    split_ifs <;> simp
  · intro hs
    rw [← hforce]
    apply h2
    rw [← hf]
    exact List.mem_filter.mpr ⟨hs, rfl⟩

/-- Witness of C10: probe mode without a separate probing request still
constructs the probe. -/
theorem C10_probe_iff_requested_witness :
    Call.containerInspector_RunContainer ∈ (OnCommand probeParams healthyEnv).trace ∧
    probeParams.doHTTPProbe = false ∧
    Call.http_NewCustomProbe ∈ (OnCommand probeParams healthyEnv).trace :=
  ⟨by decide, rfl,
    (C10_probe_iff_requested probeParams healthyEnv (by decide) rfl).1.mpr (Or.inl rfl)⟩

/-! ## C11 -/

theorem proj_allSteps {α : Type} (x : M α) : proj allSteps x = x := by
  apply M_ext
  · show List.filter allSteps x.trace = x.trace
    rw [List.filter_eq_self]
    intros
    rfl
  · rfl

theorem exitsWell_bind {α β : Type} (x : M α) (f : α → M β) (hx : exitsWell x)
    (hc : clean x) (hf : ∀ a, exitsWell (f a)) : exitsWell (x >>= f) := by
  intro code h
  simp only [bind_res, bind_trace] at h ⊢
  rcases hr : x.res with a | o
  · rw [hr] at h
    simp only [andThen_ok, after_ok] at h ⊢
    obtain ⟨vars, rest, h1, h2, h3⟩ := hf a code h
    refine ⟨vars, rest ++ x.trace.reverse, ?_, h2, ?_⟩
    · rw [List.reverse_append, h1]
      rfl
    · rw [List.filter_append, h3, List.filter_reverse, hc a hr]
      rfl
  · rw [hr] at h
    simp only [andThen_halt, after_halt, List.append_nil] at h ⊢
    cases h
    exact hx code hr

theorem exitsWell_pure {α : Type} (a : α) : exitsWell (pure a : M α) := by
  intro code h
  cases h

theorem exitsWell_of_no_exit {α : Type} (x : M α)
    (h : ∀ code, x.res ≠ .halt (.exit code)) : exitsWell x :=
  fun code hc => absurd hc (h code)

theorem connect_exitsWell (p : Params) (e : Env) : exitsWell (connect p e) := by
  rw [← proj_allSteps (connect p e)]
  generalize hX : proj allSteps (connect p e) = X
  simp [connect, allSteps, proj_bind, proj_ite, proj_pure, proj_call, proj_xc_Exit,
    proj_FailOn, proj_FailWhen, proj_Fail, proj_WarnOn, proj_forRange_call, proj_mk, proj_prepend,
    M_pure_bind, mk_ok_bind, mk_halt_bind, ite_bind, prepend_mk, prepend_ite, mk_ite_trace] at hX
  revert X
  intro X
  repeat' (apply tree_ite <;> intro _)
  all_goals (intro hX; subst hX; intro code h; cases h <;>
    exact ⟨_, _, rfl, by simp [exitedVars, List.lookup], by simp [isTerminal]⟩)

theorem paramsInfo_exitsWell (p : Params) : exitsWell (paramsInfo p) := by
  apply exitsWell_of_no_exit
  intro code h
  simp [paramsInfo] at h

theorem fatImageBuild_exitsWell (p : Params) (e : Env) : exitsWell (fatImageBuild p e) := by
  rw [← proj_allSteps (fatImageBuild p e)]
  generalize hX : proj allSteps (fatImageBuild p e) = X
  simp [fatImageBuild, fatImageRepoNameTag, allSteps, proj_bind, proj_ite, proj_pure, proj_call, proj_xc_Exit,
    proj_FailOn, proj_FailWhen, proj_Fail, proj_WarnOn, proj_forRange_call, proj_mk, proj_prepend,
    M_pure_bind, mk_ok_bind, mk_halt_bind, ite_bind, prepend_mk, prepend_ite, mk_ite_trace] at hX
  revert X
  intro X
  repeat' (apply tree_ite <;> intro _)
  all_goals (intro hX; subst hX; intro code h; cases h <;>
    exact ⟨_, _, rfl, by simp [exitedVars, List.lookup], by simp [isTerminal]⟩)

theorem networkCheck_exitsWell (p : Params) (e : Env) : exitsWell (networkCheck p e) := by
  rw [← proj_allSteps (networkCheck p e)]
  generalize hX : proj allSteps (networkCheck p e) = X
  simp [networkCheck, allSteps, proj_bind, proj_ite, proj_pure, proj_call, proj_xc_Exit,
    proj_FailOn, proj_FailWhen, proj_Fail, proj_WarnOn, proj_forRange_call, proj_mk, proj_prepend,
    M_pure_bind, mk_ok_bind, mk_halt_bind, ite_bind, prepend_mk, prepend_ite, mk_ite_trace] at hX
  revert X
  intro X
  repeat' (apply tree_ite <;> intro _)
  all_goals (intro hX; subst hX; intro code h; cases h <;>
    exact ⟨_, _, rfl, by simp [exitedVars, List.lookup], by simp [isTerminal]⟩)

theorem imageResolution_exitsWell (p : Params) (e : Env) (t : String) : exitsWell (imageResolution p e t) := by
  rw [← proj_allSteps (imageResolution p e t)]
  generalize hX : proj allSteps (imageResolution p e t) = X
  simp [imageResolution, allSteps, proj_bind, proj_ite, proj_pure, proj_call, proj_xc_Exit,
    proj_FailOn, proj_FailWhen, proj_Fail, proj_WarnOn, proj_forRange_call, proj_mk, proj_prepend,
    M_pure_bind, mk_ok_bind, mk_halt_bind, ite_bind, prepend_mk, prepend_ite, mk_ite_trace] at hX
  revert X
  intro X
  repeat' (apply tree_ite <;> intro _)
  all_goals (intro hX; subst hX; intro code h; cases h <;>
    exact ⟨_, _, rfl, by simp [exitedVars, List.lookup], by simp [isTerminal]⟩)

theorem imageInspection_exitsWell (p : Params) (e : Env) (r : BuildCommand) :
    exitsWell (imageInspection p e r) := by
  apply exitsWell_of_no_exit
  intro code h
  simp [imageInspection, dockerfileInfoEvents_res] at h
  split_ifs at h
  all_goals cases h

theorem containerLaunch_exitsWell (e : Env) (t : String) : exitsWell (containerLaunch e t) := by
  rw [← proj_allSteps (containerLaunch e t)]
  generalize hX : proj allSteps (containerLaunch e t) = X
  simp [containerLaunch, allSteps, proj_bind, proj_ite, proj_pure, proj_call, proj_xc_Exit,
    proj_FailOn, proj_FailWhen, proj_Fail, proj_WarnOn, proj_forRange_call, proj_mk, proj_prepend,
    M_pure_bind, mk_ok_bind, mk_halt_bind, ite_bind, prepend_mk, prepend_ite, mk_ite_trace] at hX
  revert X
  intro X
  repeat' (apply tree_ite <;> intro _)
  all_goals (intro hX; subst hX; intro code h; cases h <;>
    exact ⟨_, _, rfl, by simp [exitedVars, List.lookup], by simp [isTerminal]⟩)

theorem httpProbeStart_exitsWell (e : Env) (b : Bool) : exitsWell (httpProbeStart e b) := by
  rw [← proj_allSteps (httpProbeStart e b)]
  generalize hX : proj allSteps (httpProbeStart e b) = X
  simp [httpProbeStart, allSteps, proj_bind, proj_ite, proj_pure, proj_call, proj_xc_Exit,
    proj_FailOn, proj_FailWhen, proj_Fail, proj_WarnOn, proj_forRange_call, proj_mk, proj_prepend,
    M_pure_bind, mk_ok_bind, mk_halt_bind, ite_bind, prepend_mk, prepend_ite, mk_ite_trace] at hX
  revert X
  intro X
  repeat' (apply tree_ite <;> intro _)
  all_goals (intro hX; subst hX; intro code h; cases h <;>
    exact ⟨_, _, rfl, by simp [exitedVars, List.lookup], by simp [isTerminal]⟩)

theorem continueAfterWait_exitsWell (p : Params) (e : Env) (pr : Option CustomProbe) :
    exitsWell (continueAfterWait p e pr) := by
  apply exitsWell_of_no_exit
  intro code h
  simp [continueAfterWait, execBranch] at h
  split_ifs at h
  all_goals cases h

theorem teardown_exitsWell (e : Env) (b : Bool) : exitsWell (teardown e b) := by
  rw [← proj_allSteps (teardown e b)]
  generalize hX : proj allSteps (teardown e b) = X
  simp [teardown, allSteps, proj_bind, proj_ite, proj_pure, proj_call, proj_xc_Exit,
    proj_FailOn, proj_FailWhen, proj_Fail, proj_WarnOn, proj_forRange_call, proj_mk, proj_prepend,
    M_pure_bind, mk_ok_bind, mk_halt_bind, ite_bind, prepend_mk, prepend_ite, mk_ite_trace] at hX
  revert X
  intro X
  repeat' (apply tree_ite <;> intro _)
  all_goals (intro hX; subst hX; intro code h; cases h <;>
    exact ⟨_, _, rfl, by simp [exitedVars, List.lookup], by simp [isTerminal]⟩)

theorem artifactCheck_exitsWell (p : Params) (e : Env) : exitsWell (artifactCheck p e) := by
  rw [← proj_allSteps (artifactCheck p e)]
  generalize hX : proj allSteps (artifactCheck p e) = X
  simp [artifactCheck, allSteps, proj_bind, proj_ite, proj_pure, proj_call, proj_xc_Exit,
    proj_FailOn, proj_FailWhen, proj_Fail, proj_WarnOn, proj_forRange_call, proj_mk, proj_prepend,
    M_pure_bind, mk_ok_bind, mk_halt_bind, ite_bind, prepend_mk, prepend_ite, mk_ite_trace] at hX
  revert X
  intro X
  repeat' (apply tree_ite <;> intro _)
  all_goals (intro hX; subst hX; intro code h; cases h <;>
    exact ⟨_, _, rfl, by simp [exitedVars, List.lookup], by simp [isTerminal]⟩)

theorem minimizedImageBuild_exitsWell (p : Params) (e : Env) (tag : String) (r : BuildCommand) : exitsWell (minimizedImageBuild p e tag r) := by
  rw [← proj_allSteps (minimizedImageBuild p e tag r)]
  generalize hX : proj allSteps (minimizedImageBuild p e tag r) = X
  simp [minimizedImageBuild, allSteps, proj_bind, proj_ite, proj_pure, proj_call, proj_xc_Exit,
    proj_FailOn, proj_FailWhen, proj_Fail, proj_WarnOn, proj_forRange_call, proj_mk, proj_prepend,
    M_pure_bind, mk_ok_bind, mk_halt_bind, ite_bind, prepend_mk, prepend_ite, mk_ite_trace] at hX
  revert X
  intro X
  repeat' (apply tree_ite <;> intro _)
  all_goals (intro hX; subst hX; intro code h; cases h <;>
    exact ⟨_, _, rfl, by simp [exitedVars, List.lookup], by simp [isTerminal]⟩)

theorem resultVerification_exitsWell (e : Env) (r : BuildCommand) : exitsWell (resultVerification e r) := by
  rw [← proj_allSteps (resultVerification e r)]
  generalize hX : proj allSteps (resultVerification e r) = X
  simp [resultVerification, allSteps, proj_bind, proj_ite, proj_pure, proj_call, proj_xc_Exit,
    proj_FailOn, proj_FailWhen, proj_Fail, proj_WarnOn, proj_forRange_call, proj_mk, proj_prepend,
    M_pure_bind, mk_ok_bind, mk_halt_bind, ite_bind, prepend_mk, prepend_ite, mk_ite_trace] at hX
  revert X
  intro X
  repeat' (apply tree_ite <;> intro _)
  all_goals (intro hX; subst hX; intro code h; cases h <;>
    exact ⟨_, _, rfl, by simp [exitedVars, List.lookup], by simp [isTerminal]⟩)

theorem reporting_exitsWell (p : Params) (e : Env) (r : BuildCommand) :
    exitsWell (reporting p e r) := by
  apply exitsWell_of_no_exit
  intro code h
  simp [reporting, readContainerReport] at h

theorem artifactCheck_clean (p : Params) (e : Env) : clean (artifactCheck p e) := by
  intro a
  simp [artifactCheck, isTerminal]
  intros
  split_ifs at *
  all_goals simp_all

theorem minimizedImageBuild_clean (p : Params) (e : Env) (tag : String) (r : BuildCommand) :
    clean (minimizedImageBuild p e tag r) := by
  intro a
  simp [minimizedImageBuild, isTerminal]
  intros
  split_ifs at *
  all_goals simp_all

theorem resultVerification_clean (e : Env) (r : BuildCommand) :
    clean (resultVerification e r) := by
  intro a
  simp [resultVerification, isTerminal]
  intros
  split_ifs at *
  all_goals simp_all

theorem OnCommand_exitsWell (p : Params) (e : Env) : exitsWell (OnCommand p e) := by
  unfold OnCommand
  refine exitsWell_bind _ _ (connect_exitsWell p e) (connect_clean p e) (fun r => ?_)
  refine exitsWell_bind _ _ (paramsInfo_exitsWell p) (paramsInfo_clean p) (fun _ => ?_)
  refine exitsWell_bind _ _ (fatImageBuild_exitsWell p e) (fatImageBuild_clean p e) (fun t => ?_)
  refine exitsWell_bind _ _ (networkCheck_exitsWell p e) (networkCheck_clean p e) (fun _ => ?_)
  refine exitsWell_bind _ _ (imageResolution_exitsWell p e t) (imageResolution_clean p e t)
    (fun _ => ?_)
  refine exitsWell_bind _ _ (imageInspection_exitsWell p e r) (imageInspection_clean p e r)
    (fun r2 => ?_)
  refine exitsWell_bind _ _ (containerLaunch_exitsWell e t) (containerLaunch_clean e t)
    (fun _ => ?_)
  refine exitsWell_bind _ _ (httpProbeStart_exitsWell e _) (httpProbeStart_clean e _)
    (fun pr => ?_)
  refine exitsWell_bind _ _ (continueAfterWait_exitsWell p e pr)
    (continueAfterWait_clean p e pr) (fun b => ?_)
  refine exitsWell_bind _ _ (teardown_exitsWell e b) (teardown_clean e b) (fun _ => ?_)
  refine exitsWell_bind _ _ (artifactCheck_exitsWell p e) (artifactCheck_clean p e) (fun tag => ?_)
  refine exitsWell_bind _ _ (minimizedImageBuild_exitsWell p e tag r2)
    (minimizedImageBuild_clean p e tag r2) (fun r3 => ?_)
  refine exitsWell_bind _ _ (resultVerification_exitsWell e r3)
    (resultVerification_clean e r3) (fun r4 => ?_)
  exact reporting_exitsWell p e r4

/-- C11: whenever `OnCommand` ends through `xc.Exit` (every classified abort),
its last two steps are the "exited" state event, whose `exit.code` is the code
the process terminates with, and the exit itself; no other "exited" event and
no other exit occurs before. -/
theorem C11_exited_event_carries_code (p : Params) (e : Env) (code : Nat)
    (h : (OnCommand p e).res = .halt (.exit code)) :
    ∃ pre vars, (OnCommand p e).trace = pre ++ [.OutState "exited" vars, .xc_Exit code] ∧
      vars.lookup "exit.code" = some (.int code) ∧ List.filter isTerminal pre = [] := by
  obtain ⟨vars, rest, h1, h2, h3⟩ := OnCommand_exitsWell p e code h
  refine ⟨rest.reverse, vars, ?_, h2, ?_⟩
  · rw [← List.reverse_reverse (OnCommand p e).trace, h1]
    simp
  · rw [List.filter_reverse, h3]
    rfl

/-- Witness of C11: the no-entrypoint abort. -/
theorem C11_exited_event_carries_code_witness :
    (OnCommand enterParams noCmdEnv).res = .halt (.exit (noCmdEnv.ECTBuild ||| ecbNoEntrypoint)) ∧
    ∃ pre vars, (OnCommand enterParams noCmdEnv).trace =
        pre ++ [.OutState "exited" vars, .xc_Exit (noCmdEnv.ECTBuild ||| ecbNoEntrypoint)] ∧
      vars.lookup "exit.code" = some (.int (noCmdEnv.ECTBuild ||| ecbNoEntrypoint : Nat)) ∧
      List.filter isTerminal pre = [] :=
  ⟨by decide, C11_exited_event_carries_code enterParams noCmdEnv _ (by decide)⟩

/-! ## Sessions that reach the last segment -/

theorem OnCommand_ok (p : Params) (e : Env) (hok : (OnCommand p e).res = .ok ()) :
    ∃ r t, (prepare p e).res = .ok (r, t) ∧ (observe p e t).res = .ok () ∧
      (OnCommand p e).trace =
        (prepare p e).trace ++ ((observe p e t).trace ++ (minimize p e r).trace) ∧
      (minimize p e r).res = .ok () := by
  rcases OnCommand_cases p e with ⟨o, _, _, hr⟩ | ⟨r, t, hp, ht, hr⟩
  · rw [hr] at hok
    cases hok
  · rcases hres : (observe p e t).res with a | o
    · rw [hres] at ht hr
      refine ⟨r, t, hp, hres, by simpa using ht, ?_⟩
      rw [← hok, hr]
      rfl
    · rw [hres] at hr
      rw [hr] at hok
      cases hok

theorem minimize_focus_ok (q : Call → Bool) (p : Params) (e : Env)
    (hok : (OnCommand p e).res = .ok ())
    (hqP : ∀ c, q c = true → inPrepare c = false)
    (hqO : ∀ c, q c = true → inObserve c = false) :
    ∃ r t, (prepare p e).res = .ok (r, t) ∧
      List.filter q (OnCommand p e).trace = (proj q (minimize p e r)).trace ∧
      (proj q (minimize p e r)).res = .ok () := by
  obtain ⟨r, t, hp, _, ht, hm⟩ := OnCommand_ok p e hok
  have hP : List.filter q (prepare p e).trace = [] := by
    rw [List.filter_eq_nil_iff]
    intro c hc hqc
    exact not_mem_of_class inPrepare _ c (prepare_class p e) (hqP c hqc) hc
  refine ⟨r, t, hp, ?_, hm⟩
  rw [ht, List.filter_append, List.filter_append, hP, filter_observe_nil q p e t hqO]
  rfl

theorem minimize_focus_reach (q : Call → Bool) (p : Params) (e : Env) (c : Call)
    (hqc : q c = true) (hcP : inPrepare c = false) (hcO : inObserve c = false)
    (hreach : c ∈ (OnCommand p e).trace)
    (hqP : ∀ c, q c = true → inPrepare c = false)
    (hqO : ∀ c, q c = true → inObserve c = false) :
    ∃ r t, (prepare p e).res = .ok (r, t) ∧ c ∈ (proj q (minimize p e r)).trace ∧
      List.filter q (OnCommand p e).trace = (proj q (minimize p e r)).trace ∧
      (OnCommand p e).res = (proj q (minimize p e r)).res := by
  obtain ⟨r, t, hp, ht, hr⟩ := focus_observe p e c hcP hreach
  have hP : List.filter q (prepare p e).trace = [] := by
    rw [List.filter_eq_nil_iff]
    intro c hc hqc
    exact not_mem_of_class inPrepare _ c (prepare_class p e) (hqP c hqc) hc
  rw [ht] at hreach
  simp only [List.mem_append] at hreach
  rcases hres : (observe p e t).res with a | o
  · rw [hres] at ht hr hreach
    refine ⟨r, t, hp, ?_, ?_, hr⟩
    · rcases hreach with h | h | h
      · exact absurd h (not_mem_of_class inPrepare _ c (prepare_class p e) hcP)
      · exact absurd h (not_mem_of_class inObserve _ c (observe_class p e t) hcO)
      · exact List.mem_filter.mpr ⟨h, hqc⟩
    · rw [ht, List.filter_append, List.filter_append, hP, filter_observe_nil q p e t hqO]
      rfl
  · exfalso
    rw [hres] at hreach
    rcases hreach with h | h | h
    · exact absurd h (not_mem_of_class inPrepare _ c (prepare_class p e) hcP)
    · exact absurd h (not_mem_of_class inObserve _ c (observe_class p e t) hcO)
    · simp at h

theorem prepare_report (p : Params) (e : Env) (r : BuildCommand) (t : String)
    (h : (prepare p e).res = .ok (r, t)) :
    r = withImageStack e { State := .started, TargetReference := p.targetRef } := by
  have h2 : (proj noStep (prepare p e)).res = .ok (r, t) := h
  revert h2
  generalize hX : proj noStep (prepare p e) = X
  simp [prepare, connect, paramsInfo, fatImageBuild, fatImageRepoNameTag, networkCheck,
    imageResolution, imageInspection, proj_dockerfileInfoEvents, noStep,
    proj_bind, proj_ite, proj_pure, proj_call, proj_xc_Exit, proj_FailOn,
    proj_FailWhen, proj_Fail, proj_WarnOn, proj_forRange_call, proj_mk, proj_prepend, M_pure_bind,
    mk_ok_bind, mk_halt_bind, ite_bind, prepend_mk, prepend_ite, mk_ite_trace] at hX
  revert X
  intro X
  repeat' (apply tree_ite <;> intro _)
  all_goals (intro hX; subst hX; simp)
  all_goals (intro h _; exact h.symm)

theorem withImageStack_fields (e : Env) (r : BuildCommand) :
    (withImageStack e r).MinifiedBy = r.MinifiedBy ∧
    (withImageStack e r).SourceImage = r.SourceImage ∧
    (withImageStack e r).MinifiedImageSize = r.MinifiedImageSize ∧
    (withImageStack e r).Error = r.Error := by
  unfold withImageStack
  split
  · simp
  · split <;> simp

/-! ## C12 -/

theorem minimize_saved (p : Params) (e : Env) (r0 : BuildCommand)
    (hins : e.newImageInspect = none)
    (hok : (proj isSave (minimize p e r0)).res = .ok ()) :
    ∃ r, (proj isSave (minimize p e r0)).trace = [.cmdReport_Save r] ∧
      r.MinifiedBy = .div (.ofInt e.imageInfo.VirtualSize) (.ofInt e.newImageInfo.VirtualSize) ∧
      r.MinifiedImageSize = e.newImageInfo.VirtualSize ∧ r.State = .done := by
  generalize hX : proj isSave (minimize p e r0) = X at *
  simp [minimize, artifactCheck, minimizedImageBuild, resultVerification, reporting,
    readContainerReport, isSave, hins, proj_bind, proj_ite, proj_pure, proj_call, proj_xc_Exit,
    proj_FailOn, proj_FailWhen, proj_Fail, proj_WarnOn, proj_forRange_call, proj_mk, proj_prepend,
    M_pure_bind, mk_ok_bind, mk_halt_bind, ite_bind, prepend_mk, prepend_ite, mk_ite_trace] at hX
  revert hok
  revert X
  intro X
  repeat' (apply tree_ite <;> intro _)
  all_goals (intro hX; subst hX; simp [recordMinified])

/-- C12: in a session that completes and whose re-inspection of the minimized
image succeeds, exactly one report is saved; its `MinifiedBy` is
`float64(S0) / float64(S1)` for the sizes `S0` of the original and `S1` of the
minimized image, its `MinifiedImageSize` is `S1`, and its state is done. -/
theorem C12_ratio_recorded (p : Params) (e : Env)
    (hok : (OnCommand p e).res = .ok ()) (hins : e.newImageInspect = none) :
    ∃ r, (OnCommand p e).trace.filterMap savedReport = [r] ∧
      r.MinifiedBy = .div (.ofInt e.imageInfo.VirtualSize) (.ofInt e.newImageInfo.VirtualSize) ∧
      r.MinifiedImageSize = e.newImageInfo.VirtualSize ∧ r.State = .done := by
  obtain ⟨r0, t, _, hf, hm⟩ := minimize_focus_ok isSave p e hok
    (by intro c h1; cases c <;> simp_all [isSave, inPrepare])
    (by intro c h1; cases c <;> simp_all [isSave, inObserve])
  obtain ⟨r, h1, h2, h3, h4⟩ := minimize_saved p e r0 hins hm
  refine ⟨r, ?_, h2, h3, h4⟩
  rw [← filterMap_filter_eq savedReport isSave _
    (by intro c h; cases c <;> simp_all [isSave, savedReport]), hf, h1]
  rfl

/-- Witness of C12: a completed session with sizes 1000 and 40. -/
theorem C12_ratio_recorded_witness :
    (OnCommand enterParams sizedEnv).res = .ok () ∧ sizedEnv.newImageInspect = none ∧
    ∃ r, (OnCommand enterParams sizedEnv).trace.filterMap savedReport = [r] ∧
      r.MinifiedBy = .div (.ofInt sizedEnv.imageInfo.VirtualSize)
        (.ofInt sizedEnv.newImageInfo.VirtualSize) ∧
      r.MinifiedImageSize = sizedEnv.newImageInfo.VirtualSize ∧ r.State = .done :=
  ⟨by decide, rfl, C12_ratio_recorded enterParams sizedEnv (by decide) rfl⟩

/-! ## C13 -/

theorem minimize_inspect_failed (p : Params) (e : Env) (r0 : BuildCommand) (msg : String)
    (herr : e.newImageInspect = some msg)
    (hreach : Call.newImageInspector_Inspect ∈ (proj isVerifyStep (minimize p e r0)).trace) :
    e.newImageNewInspector = none ∧ e.newImageNoImage = false ∧
    ∃ r, proj isVerifyStep (minimize p e r0) =
        ⟨[.newImageInspector_Inspect, .OutState "done" [], .cmdReport_Save r], .ok ()⟩ ∧
      r.State = .done ∧ r.Error = msg ∧ r.MinifiedBy = r0.MinifiedBy ∧
      r.SourceImage = r0.SourceImage ∧ r.MinifiedImageSize = r0.MinifiedImageSize := by
  generalize hX : proj isVerifyStep (minimize p e r0) = X at *
  simp [minimize, artifactCheck, minimizedImageBuild, resultVerification, reporting,
    readContainerReport, isVerifyStep, herr, proj_bind, proj_ite, proj_pure, proj_call,
    proj_xc_Exit, proj_FailOn, proj_FailWhen, proj_Fail, proj_WarnOn, proj_forRange_call, proj_mk,
    proj_prepend, M_pure_bind, mk_ok_bind, mk_halt_bind, ite_bind, prepend_mk, prepend_ite,
    mk_ite_trace] at hX
  revert hreach
  revert X
  intro X
  repeat' (apply tree_ite <;> intro _)
  all_goals (intro hX; subst hX; simp_all)

theorem resultVerification_error (e : Env) (r0 : BuildCommand) (msg : String)
    (h1 : e.newImageNewInspector = none) (h2 : e.newImageNoImage = false)
    (h3 : e.newImageInspect = some msg) :
    ∃ r1, (resultVerification e r0).res = .ok r1 ∧ r1.State = .error ∧ r1.Error = msg ∧
      r1.MinifiedBy = r0.MinifiedBy ∧ r1.SourceImage = r0.SourceImage ∧
      r1.MinifiedImageSize = r0.MinifiedImageSize := by
  simp [resultVerification, h1, h2, h3, errutil_FailOn, errutil_WarnOn, call]

theorem reporting_clean (p : Params) (e : Env) (r : BuildCommand) : clean (reporting p e r) := by
  intro a
  have h : proj isTerminal (reporting p e r) = ⟨[], .ok ()⟩ := by
    generalize hX : proj isTerminal (reporting p e r) = X
    simp [reporting, readContainerReport, isTerminal, proj_bind, proj_ite, proj_pure, proj_call,
      proj_xc_Exit, proj_FailOn, proj_FailWhen, proj_Fail, proj_WarnOn, proj_forRange_call,
      proj_mk, proj_prepend, M_pure_bind, mk_ok_bind, mk_halt_bind, ite_bind, prepend_mk,
      prepend_ite, mk_ite_trace] at hX
    exact hX.symm
  intro _
  exact congrArg M.trace h

theorem OnCommand_clean (p : Params) (e : Env) : clean (OnCommand p e) := by
  unfold OnCommand
  refine clean_bind _ _ (connect_clean p e) (fun r => ?_)
  refine clean_bind _ _ (paramsInfo_clean p) (fun _ => ?_)
  refine clean_bind _ _ (fatImageBuild_clean p e) (fun t => ?_)
  refine clean_bind _ _ (networkCheck_clean p e) (fun _ => ?_)
  refine clean_bind _ _ (imageResolution_clean p e t) (fun _ => ?_)
  refine clean_bind _ _ (imageInspection_clean p e r) (fun r2 => ?_)
  refine clean_bind _ _ (containerLaunch_clean e t) (fun _ => ?_)
  refine clean_bind _ _ (httpProbeStart_clean e _) (fun pr => ?_)
  refine clean_bind _ _ (continueAfterWait_clean p e pr) (fun b => ?_)
  refine clean_bind _ _ (teardown_clean e b) (fun _ => ?_)
  refine clean_bind _ _ (artifactCheck_clean p e) (fun tag => ?_)
  refine clean_bind _ _ (minimizedImageBuild_clean p e tag r2) (fun r3 => ?_)
  refine clean_bind _ _ (resultVerification_clean e r3) (fun r4 => ?_)
  exact reporting_clean p e r4

/-- C13: in a session that reaches the inspection of the minimized image (the
image was built and found), when that inspection fails with message `msg`:
the session returns without an "exited" event or an exit; the verification
stage hands on a report in state error with `msg` recorded and the size-ratio,
source-image and minimized-size fields untouched; the "done" state event is
emitted and the report saved at the end carries `msg` and the zero values of
those three fields. -/
theorem C13_inspection_failure_not_fatal (p : Params) (e : Env) (msg : String)
    (hreach : Call.newImageInspector_Inspect ∈ (OnCommand p e).trace)
    (herr : e.newImageInspect = some msg) :
    (OnCommand p e).res = .ok () ∧
    List.filter isTerminal (OnCommand p e).trace = [] ∧
    (∀ r0, ∃ r1, (resultVerification e r0).res = .ok r1 ∧ r1.State = .error ∧ r1.Error = msg ∧
      r1.MinifiedBy = r0.MinifiedBy ∧ r1.SourceImage = r0.SourceImage ∧
      r1.MinifiedImageSize = r0.MinifiedImageSize) ∧
    ∃ r, List.filter isVerifyStep (OnCommand p e).trace =
        [.newImageInspector_Inspect, .OutState "done" [], .cmdReport_Save r] ∧
      r.Error = msg ∧ r.MinifiedBy = .zero ∧ r.SourceImage = {} ∧ r.MinifiedImageSize = 0 := by
  obtain ⟨r0, t, hp, hm, hf, hr⟩ := minimize_focus_reach isVerifyStep p e
    Call.newImageInspector_Inspect rfl rfl rfl hreach
    (by intro c h1; cases c <;> simp_all [isVerifyStep, inPrepare])
    (by intro c h1; cases c <;> simp_all [isVerifyStep, inObserve])
  obtain ⟨h1, h2, r, hX, _, hE, hB, hS, hZ⟩ := minimize_inspect_failed p e r0 msg herr hm
  rw [hX] at hf hr
  have h0 := prepare_report p e r0 t hp
  obtain ⟨w1, w2, w3, _⟩ := withImageStack_fields e { State := .started, TargetReference := p.targetRef }
  rw [← h0] at w1 w2 w3
  refine ⟨hr, OnCommand_clean p e () hr, fun r0 => resultVerification_error e r0 msg h1 h2 herr,
    r, hf, hE, hB.trans w1, hS.trans w2, hZ.trans w3⟩

/-- Witness of C13: the inspection of the minimized image fails. -/
theorem C13_inspection_failure_not_fatal_witness :
    Call.newImageInspector_Inspect ∈ (OnCommand enterParams inspectFailEnv).trace ∧
    (OnCommand enterParams inspectFailEnv).res = .ok () ∧
    List.filter isTerminal (OnCommand enterParams inspectFailEnv).trace = [] :=
  ⟨by decide,
    (C13_inspection_failure_not_fatal enterParams inspectFailEnv "no such image"
      (by decide) rfl).1,
    (C13_inspection_failure_not_fatal enterParams inspectFailEnv "no such image"
      (by decide) rfl).2.1⟩

/-! ## C14 -/

theorem or_and_seven (mask r : Nat) (hmask : mask &&& 7 = 0) :
    (mask ||| r) &&& 7 = r &&& 7 := by
  apply Nat.eq_of_testBit_eq
  intro i
  have h := congrArg (fun n => n.testBit i) hmask
  simp only [Nat.testBit_and, Nat.testBit_or, Nat.zero_testBit] at h ⊢
  cases h1 : mask.testBit i <;> cases h2 : Nat.testBit 7 i <;> simp_all

theorem and_or_absorb (x y : Nat) : x &&& (x ||| y) = x := by
  apply Nat.eq_of_testBit_eq
  intro i
  simp only [Nat.testBit_and, Nat.testBit_or]
  cases x.testBit i <;> simp

theorem or_ne_one (mask r : Nat) (hne : mask ≠ 0) (hmask : mask &&& 7 = 0) :
    mask ||| r ≠ 1 := by
  intro h
  apply hne
  have h1 : mask &&& 1 = mask := by rw [← h, and_or_absorb]
  have h2 : mask &&& 1 = (mask &&& 7) &&& 1 := by
    rw [Nat.land_assoc]
    rfl
  rw [← h1, h2, hmask]
  rfl

theorem or_reason_inj (mask r s : Nat) (hmask : mask &&& 7 = 0) (hr : r &&& 7 = r)
    (hs : s &&& 7 = s) (h : mask ||| r = mask ||| s) : r = s := by
  have h1 := or_and_seven mask r hmask
  have h2 := or_and_seven mask s hmask
  rw [h, h2, hs, hr] at h1
  exact h1.symm

theorem continueAfterMsg_ne_fatal (m : String) :
    continueAfterMsg m ≠ "fatal: exec cmd failure" := by
  unfold continueAfterMsg
  split_ifs <;> decide

theorem prepare_abort (p : Params) (e : Env) :
    (∀ code, (proj isAbortStep (prepare p e)).res = .halt (.exit code) →
      ∃ a, (proj isAbortStep (prepare p e)).trace.filterMap abortOf = [a] ∧
        code = taxonomyCode e a) ∧
    (∀ v, (proj isAbortStep (prepare p e)).res = .ok v →
      (proj isAbortStep (prepare p e)).trace = []) := by
  generalize hX : proj isAbortStep (prepare p e) = X
  simp [prepare, connect, paramsInfo, fatImageBuild, fatImageRepoNameTag, networkCheck,
    imageResolution, imageInspection, proj_dockerfileInfoEvents, isAbortStep, abortOf, varIs,
    List.lookup, proj_bind, proj_ite, proj_pure, proj_call, proj_xc_Exit, proj_FailOn,
    proj_FailWhen, proj_Fail, proj_WarnOn, proj_forRange_call, proj_mk, proj_prepend, M_pure_bind,
    mk_ok_bind, mk_halt_bind, ite_bind, prepend_mk, prepend_ite, mk_ite_trace] at hX
  revert X
  intro X
  repeat' (apply tree_ite <;> intro _)
  all_goals (intro hX; subst hX
             simp [abortOf, varIs, List.lookup, taxonomyCode, Abort.buildReason])

theorem observe_abort (p : Params) (e : Env) (t : String) :
    (∀ code, (proj isAbortStep (observe p e t)).res = .halt (.exit code) →
      ∃ a, (proj isAbortStep (observe p e t)).trace.filterMap abortOf = [a] ∧
        code = taxonomyCode e a) ∧
    (∀ v, (proj isAbortStep (observe p e t)).res = .ok v →
      (proj isAbortStep (observe p e t)).trace = []) := by
  generalize hX : proj isAbortStep (observe p e t) = X
  simp [observe, containerLaunch, httpProbeStart, continueAfterWait, execBranch, teardown,
    isAbortStep, abortOf, varIs, List.lookup, continueAfterMsg_ne_fatal,
    proj_bind, proj_ite, proj_pure, proj_call, proj_xc_Exit, proj_FailOn,
    proj_FailWhen, proj_Fail, proj_WarnOn, proj_forRange_call, proj_mk, proj_prepend, M_pure_bind,
    mk_ok_bind, mk_halt_bind, ite_bind, prepend_mk, prepend_ite, mk_ite_trace] at hX
  revert X
  intro X
  repeat' (apply tree_ite <;> intro _)
  all_goals (intro hX; subst hX
             simp [abortOf, varIs, List.lookup, taxonomyCode, Abort.buildReason])

theorem minimize_abort (p : Params) (e : Env) (r : BuildCommand) :
    (∀ code, (proj isAbortStep (minimize p e r)).res = .halt (.exit code) →
      ∃ a, (proj isAbortStep (minimize p e r)).trace.filterMap abortOf = [a] ∧
        code = taxonomyCode e a) ∧
    (∀ v, (proj isAbortStep (minimize p e r)).res = .ok v →
      (proj isAbortStep (minimize p e r)).trace = []) := by
  generalize hX : proj isAbortStep (minimize p e r) = X
  simp [minimize, artifactCheck, minimizedImageBuild, resultVerification, reporting,
    readContainerReport, isAbortStep, abortOf, varIs, List.lookup,
    proj_bind, proj_ite, proj_pure, proj_call, proj_xc_Exit,
    proj_FailOn, proj_FailWhen, proj_Fail, proj_WarnOn, proj_forRange_call, proj_mk, proj_prepend,
    M_pure_bind, mk_ok_bind, mk_halt_bind, ite_bind, prepend_mk, prepend_ite, mk_ite_trace] at hX
  revert X
  intro X
  repeat' (apply tree_ite <;> intro _)
  all_goals (intro hX; subst hX
             simp [abortOf, varIs, List.lookup, taxonomyCode, Abort.buildReason])

theorem filterMap_abortOf (l : List Call) :
    List.filterMap abortOf l = List.filterMap abortOf (List.filter isAbortStep l) :=
  (filterMap_filter_eq abortOf isAbortStep l
    (by intro c h; simpa [isAbortStep] using h)).symm

/-- A session that ends through `xc.Exit` announced exactly one abort, and its
exit code is the one the taxonomy assigns to that abort. -/
theorem OnCommand_abort (p : Params) (e : Env) (code : Nat)
    (h : (OnCommand p e).res = .halt (.exit code)) :
    ∃ a, (OnCommand p e).trace.filterMap abortOf = [a] ∧ code = taxonomyCode e a := by
  rcases OnCommand_cases p e with ⟨o, hp, ht, hr⟩ | ⟨r, t, hp, ht, hr⟩
  · rw [hr] at h
    cases h
    rw [ht, filterMap_abortOf]
    exact (prepare_abort p e).1 code hp
  · have hP : List.filterMap abortOf (prepare p e).trace = [] := by
      rw [filterMap_abortOf]
      have := (prepare_abort p e).2 (r, t) hp
      exact congrArg (List.filterMap abortOf) this
    rw [hr] at h
    rw [ht, List.filterMap_append, List.filterMap_append, hP, List.nil_append]
    rcases hres : (observe p e t).res with a | o
    · rw [hres] at h
      have hO : List.filterMap abortOf (observe p e t).trace = [] := by
        rw [filterMap_abortOf]
        exact congrArg (List.filterMap abortOf) ((observe_abort p e t).2 a hres)
      rw [hO, List.nil_append]
      show ∃ a, List.filterMap abortOf (minimize p e r).trace = [a] ∧ _
      rw [filterMap_abortOf]
      exact (minimize_abort p e r).1 code h
    · rw [hres] at h
      cases h
      simp only [after_halt, List.filterMap_nil, List.append_nil]
      rw [filterMap_abortOf]
      exact (observe_abort p e t).1 code hres

theorem taxonomyCode_build (e : Env) (a : Abort) (h : a.isBuild = true) :
    taxonomyCode e a = e.ECTBuild ||| a.buildReason ∧ taxonomyCode e a ∈ buildExitCodes e := by
  cases a <;> simp_all [Abort.isBuild, taxonomyCode, Abort.buildReason, buildExitCodes]

theorem taxonomyCode_mem (e : Env) (a : Abort) : taxonomyCode e a ∈ exitCodes e := by
  cases a <;> simp [taxonomyCode, Abort.buildReason, exitCodes]

/-- C15: the build reason codes are 1, 2, 3 and 4.  A session that ends
through `xc.Exit` announced exactly one abort and exits with the code the
taxonomy assigns to it: category mask OR reason, or the bare 1 of the exec
failure; an abort of the build category exits with the build mask OR its
reason (2 for the malformed custom tag, 4 for the missing entrypoint, 3 for
the others).  For a nonzero build mask that shares no bit with 7 the four
build exit codes are pairwise distinct and none of them is 1, so no build
abort exits with the code of the exec failure. -/
theorem C15_exit_code_taxonomy (p : Params) (e : Env)
    (hne : e.ECTBuild ≠ 0) (hmask : e.ECTBuild &&& 7 = 0) :
    ecbOther = 1 ∧ ecbBadCustomImageTag = 2 ∧ ecbImageBuildError = 3 ∧ ecbNoEntrypoint = 4 ∧
    (∀ code, (OnCommand p e).res = .halt (.exit code) → code ∈ exitCodes e) ∧
    (buildExitCodes e).Nodup ∧ 1 ∉ buildExitCodes e ∧
    (∀ code, (OnCommand p e).res = .halt (.exit code) →
      ∃ a, (OnCommand p e).trace.filterMap abortOf = [a] ∧ code = taxonomyCode e a ∧
        (a.isBuild = true →
          code = e.ECTBuild ||| a.buildReason ∧ code ∈ buildExitCodes e ∧ code ≠ 1)) := by
  have h1 : 1 ∉ buildExitCodes e := by
    simp only [buildExitCodes, List.mem_cons, List.mem_singleton, List.not_mem_nil, or_false,
      not_or]
    refine ⟨?_, ?_, ?_, ?_⟩ <;> exact fun h => or_ne_one e.ECTBuild _ hne hmask h.symm
  refine ⟨rfl, rfl, rfl, rfl, fun code h => ?_, ?_, h1, fun code h => ?_⟩
  · obtain ⟨a, _, hc⟩ := OnCommand_abort p e code h
    rw [hc]
    exact taxonomyCode_mem e a
  · have ne : ∀ r s, r &&& 7 = r → s &&& 7 = s → r ≠ s →
        e.ECTBuild ||| r ≠ e.ECTBuild ||| s :=
      fun r s hr hs hrs h => hrs (or_reason_inj e.ECTBuild r s hmask hr hs h)
    simp only [buildExitCodes, List.nodup_cons, List.mem_cons, List.mem_singleton,
      List.not_mem_nil, or_false, not_or, List.nodup_nil, and_true]
    repeat' apply And.intro
    all_goals first | exact ne _ _ (by decide) (by decide) (by decide) | simp
  · obtain ⟨a, ha, hc⟩ := OnCommand_abort p e code h
    refine ⟨a, ha, hc, fun hb => ?_⟩
    obtain ⟨b1, b2⟩ := taxonomyCode_build e a hb
    rw [hc]
    exact ⟨b1, b2, fun h2 => h1 (h2 ▸ b2)⟩

/-- Witness of C15: with the build mask 0x02000000, the failed build of the
minimized image is announced once and exits with the mask OR 3. -/
theorem C15_exit_code_taxonomy_witness :
    minBuildFailEnv.ECTBuild ≠ 0 ∧ minBuildFailEnv.ECTBuild &&& 7 = 0 ∧
    (OnCommand enterParams minBuildFailEnv).res =
      .halt (.exit (minBuildFailEnv.ECTBuild ||| ecbImageBuildError)) ∧
    (buildExitCodes minBuildFailEnv).Nodup ∧ 1 ∉ buildExitCodes minBuildFailEnv ∧
    ∃ a, (OnCommand enterParams minBuildFailEnv).trace.filterMap abortOf = [a] ∧
      minBuildFailEnv.ECTBuild ||| ecbImageBuildError = taxonomyCode minBuildFailEnv a ∧
      (a.isBuild = true →
        minBuildFailEnv.ECTBuild ||| ecbImageBuildError =
            minBuildFailEnv.ECTBuild ||| a.buildReason ∧
          minBuildFailEnv.ECTBuild ||| ecbImageBuildError ∈ buildExitCodes minBuildFailEnv ∧
          minBuildFailEnv.ECTBuild ||| ecbImageBuildError ≠ 1) :=
  ⟨by decide, by decide, by decide,
    (C15_exit_code_taxonomy enterParams minBuildFailEnv (by decide) (by decide)).2.2.2.2.2.1,
    (C15_exit_code_taxonomy enterParams minBuildFailEnv (by decide) (by decide)).2.2.2.2.2.2.1,
    (C15_exit_code_taxonomy enterParams minBuildFailEnv (by decide) (by decide)).2.2.2.2.2.2.2 _
      (by decide)⟩

/-! ## C16 -/

theorem observe_probe_done (p : Params) (e : Env) (t : String)
    (hmode : p.continueAfter.Mode = "probe")
    (hreach : Call.recv_ContinueChan ∈ (proj isProbeDone (observe p e t)).trace) :
    proj isProbeDone (observe p e t) =
      ⟨.recv_ContinueChan :: (showLogsStep e ++
        [.containerInspector_FinishMonitoring, .containerInspector_ShutdownContainer]),
        .ok ()⟩ := by
  generalize hX : proj isProbeDone (observe p e t) = X at *
  simp [observe, containerLaunch, httpProbeStart, continueAfterWait, execBranch, teardown,
    forceHTTPProbe, isProbeDone, hmode, proj_bind, proj_ite, proj_pure, proj_call, proj_xc_Exit,
    proj_FailOn, proj_FailWhen, proj_Fail, proj_WarnOn, proj_forRange_call, proj_mk, proj_prepend,
    M_pure_bind, mk_ok_bind, mk_halt_bind, ite_bind, prepend_mk, prepend_ite, mk_ite_trace] at hX
  revert hreach
  revert X
  intro X
  repeat' (apply tree_ite <;> intro _)
  all_goals (intro hX; subst hX; simp_all [showLogsStep])

theorem minimize_starts (p : Params) (e : Env) (r : BuildCommand) :
    ∃ rest, (proj isProbeDone (minimize p e r)).trace =
      .containerInspector_HasCollectedData :: rest := by
  generalize hX : proj isProbeDone (minimize p e r) = X at *
  simp [minimize, artifactCheck, minimizedImageBuild, resultVerification, reporting,
    readContainerReport, isProbeDone, proj_bind, proj_ite, proj_pure, proj_call, proj_xc_Exit,
    proj_FailOn, proj_FailWhen, proj_Fail, proj_WarnOn, proj_forRange_call, proj_mk, proj_prepend,
    M_pure_bind, mk_ok_bind, mk_halt_bind, ite_bind, prepend_mk, prepend_ite, mk_ite_trace] at hX
  revert X
  intro X
  repeat' (apply tree_ite <;> intro _)
  all_goals (intro hX; subst hX; exact ⟨_, rfl⟩)

/-- C16: in probe mode, once the completion signal of the probe has been
received, the show-container-logs flag is set to true exactly when the probe
made at least one call and none succeeded; in both cases the session goes on
through `FinishMonitoring` and `ShutdownContainer` to the collected-data
check, with no abort step in between. -/
theorem C16_probe_done_flag (p : Params) (e : Env)
    (hmode : p.continueAfter.Mode = "probe")
    (hreach : Call.recv_ContinueChan ∈ (OnCommand p e).trace) :
    ∃ rest, List.filter isProbeDone (OnCommand p e).trace =
      .recv_ContinueChan :: (showLogsStep e ++
        .containerInspector_FinishMonitoring :: .containerInspector_ShutdownContainer ::
          .containerInspector_HasCollectedData :: rest) := by
  obtain ⟨r, t, hmem, hf, _⟩ := observe_focus isProbeDone p e
    Call.recv_ContinueChan rfl rfl rfl hreach
    (by intro c h1 h2; cases c <;> simp_all [isProbeDone, inPrepare, isTerminal])
  obtain ⟨rest, hm⟩ := minimize_starts p e r
  refine ⟨rest, ?_⟩
  rw [hf, observe_probe_done p e t hmode hmem]
  have hm2 : List.filter isProbeDone (minimize p e r).trace =
      .containerInspector_HasCollectedData :: rest := hm
  simp [hm2]

/-- Witness of C16: a probe that made three calls, none of them successful. -/
theorem C16_probe_done_flag_witness :
    probeParams.continueAfter.Mode = "probe" ∧
    Call.recv_ContinueChan ∈ (OnCommand probeParams failedProbeEnv).trace ∧
    ∃ rest, List.filter isProbeDone (OnCommand probeParams failedProbeEnv).trace =
      .recv_ContinueChan :: (showLogsStep failedProbeEnv ++
        .containerInspector_FinishMonitoring :: .containerInspector_ShutdownContainer ::
          .containerInspector_HasCollectedData :: rest) :=
  ⟨rfl, by decide, C16_probe_done_flag probeParams failedProbeEnv rfl (by decide)⟩

/-! ## C17 -/

theorem savesLast_bind {α β : Type} (e : Env) (x : M α) (f : α → M β)
    (hx : List.filter isSave x.trace = []) (hf : ∀ a, savesLast e (f a)) :
    savesLast e (x >>= f) := by
  intro b h
  show ∃ r rest, (x.trace ++ after x.res (fun a => (f a).trace)).reverse = _ ∧ _
  have h : x.res.andThen (fun a => (f a).res) = .ok b := h
  rcases hr : x.res with a | o
  · rw [hr] at h
    simp only [andThen_ok, after_ok] at h ⊢
    obtain ⟨r, rest, h1, h2⟩ := hf a b h
    refine ⟨r, rest ++ x.trace.reverse, ?_, ?_⟩
    · rw [List.reverse_append, h1]
      simp
    · rw [List.filter_append, h2, List.filter_reverse, hx]
      rfl
  · rw [hr] at h
    cases h

set_option maxHeartbeats 1000000 in
theorem reporting_savesLast (p : Params) (e : Env) (r : BuildCommand) :
    savesLast e (reporting p e r) := by
  rw [← proj_allSteps (reporting p e r)]
  generalize hX : proj allSteps (reporting p e r) = X
  simp [reporting, readContainerReport, allSteps, proj_bind, proj_ite, proj_pure, proj_call,
    proj_xc_Exit, proj_FailOn, proj_FailWhen, proj_Fail, proj_WarnOn, proj_forRange_call,
    proj_mk, proj_prepend, M_pure_bind, mk_ok_bind, mk_halt_bind, ite_bind, prepend_mk,
    prepend_ite, mk_ite_trace] at hX
  revert X
  intro X
  repeat' (apply tree_ite <;> intro _)
  all_goals (intro hX; subst hX; intro a _; simp only [reportSavedInfo, *]
             exact ⟨_, _, rfl, by simp [isSave]⟩)

theorem artifactCheck_noSave (p : Params) (e : Env) :
    List.filter isSave (artifactCheck p e).trace = [] := by
  show (proj isSave (artifactCheck p e)).trace = []
  generalize hX : proj isSave (artifactCheck p e) = X
  simp [artifactCheck, isSave, proj_bind, proj_ite, proj_pure, proj_call,
    proj_xc_Exit, proj_FailOn, proj_FailWhen, proj_Fail, proj_WarnOn, proj_forRange_call,
    proj_mk, proj_prepend, M_pure_bind, mk_ok_bind, mk_halt_bind, ite_bind, prepend_mk,
    prepend_ite, mk_ite_trace] at hX
  revert X
  intro X
  repeat' (apply tree_ite <;> intro _)
  all_goals (intro hX; subst hX; rfl)

theorem minimizedImageBuild_noSave (p : Params) (e : Env) (tag : String) (r : BuildCommand) :
    List.filter isSave (minimizedImageBuild p e tag r).trace = [] := by
  show (proj isSave (minimizedImageBuild p e tag r)).trace = []
  generalize hX : proj isSave (minimizedImageBuild p e tag r) = X
  simp [minimizedImageBuild, isSave, proj_bind, proj_ite, proj_pure, proj_call,
    proj_xc_Exit, proj_FailOn, proj_FailWhen, proj_Fail, proj_WarnOn, proj_forRange_call,
    proj_mk, proj_prepend, M_pure_bind, mk_ok_bind, mk_halt_bind, ite_bind, prepend_mk,
    prepend_ite, mk_ite_trace] at hX
  revert X
  intro X
  repeat' (apply tree_ite <;> intro _)
  all_goals (intro hX; subst hX; rfl)

theorem resultVerification_noSave (e : Env) (r : BuildCommand) :
    List.filter isSave (resultVerification e r).trace = [] := by
  show (proj isSave (resultVerification e r)).trace = []
  generalize hX : proj isSave (resultVerification e r) = X
  simp [resultVerification, isSave, proj_bind, proj_ite, proj_pure, proj_call,
    proj_xc_Exit, proj_FailOn, proj_FailWhen, proj_Fail, proj_WarnOn, proj_forRange_call,
    proj_mk, proj_prepend, M_pure_bind, mk_ok_bind, mk_halt_bind, ite_bind, prepend_mk,
    prepend_ite, mk_ite_trace] at hX
  revert X
  intro X
  repeat' (apply tree_ite <;> intro _)
  all_goals (intro hX; subst hX; rfl)

theorem noSave_of_class (cls : Call → Bool) (l : List Call)
    (h : List.filter (notIn cls) l = []) (hc : ∀ c, isSave c = true → cls c = false) :
    List.filter isSave l = [] := by
  rw [List.filter_eq_nil_iff]
  intro c hm hs
  exact not_mem_of_class cls l c h (hc c hs) hm

theorem OnCommand_savesLast (p : Params) (e : Env) : savesLast e (OnCommand p e) := by
  rw [OnCommand_eq]
  refine savesLast_bind e _ _ (noSave_of_class inPrepare _ (prepare_class p e)
    (by intro c h; cases c <;> simp_all [isSave, inPrepare])) (fun rt => ?_)
  refine savesLast_bind e _ _ (noSave_of_class inObserve _ (observe_class p e _)
    (by intro c h; cases c <;> simp_all [isSave, inObserve])) (fun _ => ?_)
  unfold minimize
  refine savesLast_bind e _ _ (artifactCheck_noSave p e) (fun tag => ?_)
  refine savesLast_bind e _ _ (minimizedImageBuild_noSave p e tag _) (fun r => ?_)
  refine savesLast_bind e _ _ (resultVerification_noSave e r) (fun r2 => ?_)
  exact reporting_savesLast p e r2

theorem minimize_abort_noSave (p : Params) (e : Env) (r0 : BuildCommand) (o : Outcome)
    (h : (proj isSave (minimize p e r0)).res = .halt o) :
    (proj isSave (minimize p e r0)).trace = [] := by
  generalize hX : proj isSave (minimize p e r0) = X at *
  simp [minimize, artifactCheck, minimizedImageBuild, resultVerification, reporting,
    readContainerReport, isSave, proj_bind, proj_ite, proj_pure, proj_call, proj_xc_Exit,
    proj_FailOn, proj_FailWhen, proj_Fail, proj_WarnOn, proj_forRange_call, proj_mk, proj_prepend,
    M_pure_bind, mk_ok_bind, mk_halt_bind, ite_bind, prepend_mk, prepend_ite, mk_ite_trace] at hX
  revert h
  revert X
  intro X
  repeat' (apply tree_ite <;> intro _)
  all_goals (intro hX; subst hX; simp)

/-- C17 (counterexample): a session that aborts for lack of an entrypoint
ends without ever saving the report. -/
theorem C17_abort_saves_nothing :
    (OnCommand enterParams noCmdEnv).res =
      .halt (.exit (noCmdEnv.ECTBuild ||| ecbNoEntrypoint)) ∧
    List.filter isSave (OnCommand enterParams noCmdEnv).trace = [] := by
  decide

/-- C17 (amended): a session that completes saves the report exactly once, as
its last step but for the "report" info event that follows a successful save;
a session that aborts does not save the report. -/
theorem C17_report_saved_on_completion (p : Params) (e : Env) :
    ((OnCommand p e).res = .ok () →
      ∃ r rest, (OnCommand p e).trace.reverse =
          (reportSavedInfo e).reverse ++ .cmdReport_Save r :: rest ∧
        List.filter isSave rest = []) ∧
    (∀ o, (OnCommand p e).res = .halt o → List.filter isSave (OnCommand p e).trace = []) := by
  refine ⟨fun h => OnCommand_savesLast p e () h, fun o h => ?_⟩
  rcases minimize_focus isSave p e
    (by intro c h1; cases c <;> simp_all [isSave, inPrepare])
    (by intro c h1; cases c <;> simp_all [isSave, inObserve]) with h1 | ⟨r, hf, hr⟩
  · exact h1
  · rw [hf]
    exact minimize_abort_noSave p e r o (hr ▸ h)

/-- Witness of C17: a session that completes, and one that aborts. -/
theorem C17_report_saved_on_completion_witness :
    (OnCommand enterParams healthyEnv).res = .ok () ∧
    (∃ r rest, (OnCommand enterParams healthyEnv).trace.reverse =
        (reportSavedInfo healthyEnv).reverse ++ .cmdReport_Save r :: rest ∧
      List.filter isSave rest = []) ∧
    List.filter isSave (OnCommand enterParams noCmdEnv).trace = [] :=
  ⟨by decide, (C17_report_saved_on_completion enterParams healthyEnv).1 (by decide),
    (C17_report_saved_on_completion enterParams noCmdEnv).2
      (.exit (noCmdEnv.ECTBuild ||| ecbNoEntrypoint)) (by decide)⟩

/-! ## C18 -/

theorem splitChars_no_sep (sep : Char) (cs : List Char) (h : sep ∉ cs) :
    splitChars sep cs = [cs] := by
  induction cs with
  | nil => rfl
  | cons c cs ih =>
    simp only [List.mem_cons, not_or] at h
    rw [splitChars, if_neg (fun hc => h.1 hc.symm), ih h.2]

theorem splitChars_append_sep (sep : Char) (a b : List Char) (h : sep ∉ a) :
    splitChars sep (a ++ sep :: b) = a :: splitChars sep b := by
  induction a with
  | nil =>
    rw [List.nil_append, splitChars, if_pos rfl]
  | cons c a ih =>
    simp only [List.mem_cons, not_or] at h
    rw [List.cons_append, splitChars, if_neg (fun hc => h.1 hc.symm), ih h.2]

theorem stringsSplit_no_colon (s : String) (h : ':' ∉ s.toList) :
    stringsSplit s ':' = [s] := by
  show List.map String.mk (splitChars ':' s.toList) = [s]
  rw [splitChars_no_sep _ _ h]
  rfl

theorem stringsSplit_pair (name ver : String) (h1 : ':' ∉ name.toList)
    (h2 : ':' ∉ ver.toList) : stringsSplit (name ++ ":" ++ ver) ':' = [name, ver] := by
  have h : (name ++ ":" ++ ver).toList = name.toList ++ ':' :: ver.toList := by simp
  show List.map String.mk (splitChars ':' (name ++ ":" ++ ver).toList) = [name, ver]
  rw [h, splitChars_append_sep _ _ _ h1, splitChars_no_sep _ _ h2]
  rfl

set_option maxHeartbeats 1000000 in
theorem prepare_fat_tag (p : Params) (e : Env) (tag ctx : String)
    (hreach : Call.builder_NewBasicImageBuilder tag ctx ∈
      (proj isFatBuild (prepare p e)).trace) :
    p.cbOpts.Dockerfile ≠ "" ∧ ctx = p.targetRef ∧
    (p.cbOpts.Tag ≠ "" → tag = p.cbOpts.Tag) ∧
    (p.cbOpts.Tag = "" → p.customImageTag ≠ "" →
      (stringsSplit p.customImageTag ':').length = 1 → tag = p.customImageTag ++ ".fat") ∧
    (p.cbOpts.Tag = "" → p.customImageTag ≠ "" →
      (stringsSplit p.customImageTag ':').length = 2 →
      tag = (stringsSplit p.customImageTag ':').getD 0 "" ++ ".fat:" ++
        (stringsSplit p.customImageTag ':').getD 1 "") ∧
    (p.cbOpts.Tag = "" → p.customImageTag = "" →
      tag = "docker-slim-tmp-fat-image." ++ toString e.Getpid ++ "." ++ e.nowUTC) := by
  generalize hX : proj isFatBuild (prepare p e) = X at *
  simp [prepare, connect, paramsInfo, fatImageBuild, fatImageRepoNameTag, networkCheck,
    imageResolution, imageInspection, proj_dockerfileInfoEvents, isFatBuild,
    proj_bind, proj_ite, proj_pure, proj_call, proj_xc_Exit, proj_FailOn,
    proj_FailWhen, proj_Fail, proj_WarnOn, proj_forRange_call, proj_mk, proj_prepend, M_pure_bind,
    mk_ok_bind, mk_halt_bind, ite_bind, prepend_mk, prepend_ite, mk_ite_trace] at hX
  revert hreach
  revert X
  intro X
  repeat' (apply tree_ite <;> intro _)
  all_goals (intro hX; subst hX; simp_all)

set_option maxHeartbeats 1000000 in
theorem prepare_target_use (p : Params) (e : Env) (tag ctx : String)
    (hreach : Call.builder_NewBasicImageBuilder tag ctx ∈
      (proj isTargetUse (prepare p e)).trace) :
    (∀ c ∈ (proj isTargetUse (prepare p e)).trace, refOf c = some tag) ∧
    (∀ r t, (proj isTargetUse (prepare p e)).res = .ok (r, t) → t = tag) := by
  generalize hX : proj isTargetUse (prepare p e) = X at *
  simp [prepare, connect, paramsInfo, fatImageBuild, fatImageRepoNameTag, networkCheck,
    imageResolution, imageInspection, proj_dockerfileInfoEvents, isTargetUse,
    proj_bind, proj_ite, proj_pure, proj_call, proj_xc_Exit, proj_FailOn,
    proj_FailWhen, proj_Fail, proj_WarnOn, proj_forRange_call, proj_mk, proj_prepend, M_pure_bind,
    mk_ok_bind, mk_halt_bind, ite_bind, prepend_mk, prepend_ite, mk_ite_trace] at hX
  revert hreach
  revert X
  intro X
  repeat' (apply tree_ite <;> intro _)
  all_goals (intro hX; subst hX; simp [refOf, List.lookup]; try (intros; simp_all))

theorem prepare_inspector_on_tag (p : Params) (e : Env) (tag ctx : String)
    (hb : e.NewBasicImageBuilder = none) (hf : e.fatBuilderBuild = none)
    (hn : ¬ (p.overrides.Network = "host" ∧ e.GOOS = "darwin"))
    (hc : e.ConfirmNetwork p.overrides.Network = true)
    (hreach : Call.builder_NewBasicImageBuilder tag ctx ∈
      (proj isTargetUse (prepare p e)).trace) :
    Call.image_NewInspector tag ∈ (proj isTargetUse (prepare p e)).trace := by
  generalize hX : proj isTargetUse (prepare p e) = X at *
  simp [prepare, connect, paramsInfo, fatImageBuild, fatImageRepoNameTag, networkCheck,
    imageResolution, imageInspection, proj_dockerfileInfoEvents, isTargetUse, hb, hf, hn, hc,
    proj_bind, proj_ite, proj_pure, proj_call, proj_xc_Exit, proj_FailOn,
    proj_FailWhen, proj_Fail, proj_WarnOn, proj_forRange_call, proj_mk, proj_prepend, M_pure_bind,
    mk_ok_bind, mk_halt_bind, ite_bind, prepend_mk, prepend_ite, mk_ite_trace] at hX
  revert hreach
  revert X
  intro X
  repeat' (apply tree_ite <;> intro _)
  all_goals (intro hX; subst hX; simp_all)

theorem observe_target_use (p : Params) (e : Env) (t : String) :
    ∀ c ∈ (proj isTargetUse (observe p e t)).trace, refOf c = some t := by
  generalize hX : proj isTargetUse (observe p e t) = X at *
  simp [observe, containerLaunch, httpProbeStart, continueAfterWait, execBranch, teardown,
    isTargetUse, proj_bind, proj_ite, proj_pure, proj_call, proj_xc_Exit, proj_FailOn,
    proj_FailWhen, proj_Fail, proj_WarnOn, proj_forRange_call, proj_mk, proj_prepend, M_pure_bind,
    mk_ok_bind, mk_halt_bind, ite_bind, prepend_mk, prepend_ite, mk_ite_trace] at hX
  revert X
  intro X
  repeat' (apply tree_ite <;> intro _)
  all_goals (intro hX; subst hX; simp [refOf, List.lookup])

theorem minimize_target_use (p : Params) (e : Env) (r : BuildCommand) :
    (proj isTargetUse (minimize p e r)).trace = [] ∨
    (proj isTargetUse (minimize p e r)).trace = [.image_NewInspector e.builderRepoName] := by
  generalize hX : proj isTargetUse (minimize p e r) = X at *
  simp [minimize, artifactCheck, minimizedImageBuild, resultVerification, reporting,
    readContainerReport, isTargetUse, proj_bind, proj_ite, proj_pure, proj_call, proj_xc_Exit,
    proj_FailOn, proj_FailWhen, proj_Fail, proj_WarnOn, proj_forRange_call, proj_mk, proj_prepend,
    M_pure_bind, mk_ok_bind, mk_halt_bind, ite_bind, prepend_mk, prepend_ite, mk_ite_trace] at hX
  revert X
  intro X
  repeat' (apply tree_ite <;> intro _)
  all_goals (intro hX; subst hX; simp)

/-- C18: in a session that constructs the fat-image builder, the build is
Dockerfile-based and the tag the builder options carry is: the explicit fat
tag when it is non-empty; otherwise, for a non-empty custom image tag without
a colon, that tag followed by ".fat"; for a custom tag "name:ver" with one
colon, "name.fat:ver"; with both empty, the generated name
"docker-slim-tmp-fat-image.<pid>.<timestamp>".  Every step of the session that
carries the target reference, other than the inspector of the minimized
image, carries that tag, and after a successful build the image inspector is
constructed on it once the network check has passed. -/
theorem C18_fat_tag_derivation (p : Params) (e : Env) (tag ctx : String)
    (hreach : Call.builder_NewBasicImageBuilder tag ctx ∈ (OnCommand p e).trace) :
    p.cbOpts.Dockerfile ≠ "" ∧ ctx = p.targetRef ∧
    (p.cbOpts.Tag ≠ "" → tag = p.cbOpts.Tag) ∧
    (p.cbOpts.Tag = "" → p.customImageTag ≠ "" → ':' ∉ p.customImageTag.toList →
      tag = p.customImageTag ++ ".fat") ∧
    (p.cbOpts.Tag = "" → ∀ name ver, p.customImageTag = name ++ ":" ++ ver →
      ':' ∉ name.toList → ':' ∉ ver.toList → tag = name ++ ".fat:" ++ ver) ∧
    (p.cbOpts.Tag = "" → p.customImageTag = "" →
      tag = "docker-slim-tmp-fat-image." ++ toString e.Getpid ++ "." ++ e.nowUTC) ∧
    (e.NewBasicImageBuilder = none → e.fatBuilderBuild = none →
      ¬ (p.overrides.Network = "host" ∧ e.GOOS = "darwin") →
      e.ConfirmNetwork p.overrides.Network = true →
      Call.image_NewInspector tag ∈ (OnCommand p e).trace) ∧
    ∃ l rest, List.filter isTargetUse (OnCommand p e).trace = l ++ rest ∧
      Call.builder_NewBasicImageBuilder tag ctx ∈ l ∧ (∀ c ∈ l, refOf c = some tag) ∧
      (rest = [] ∨ rest = [.image_NewInspector e.builderRepoName]) := by
  have hP := prepare_reach p e (Call.builder_NewBasicImageBuilder tag ctx) rfl rfl hreach
  have hP1 : Call.builder_NewBasicImageBuilder tag ctx ∈ (proj isFatBuild (prepare p e)).trace :=
    List.mem_filter.mpr ⟨hP, rfl⟩
  have hP2 : Call.builder_NewBasicImageBuilder tag ctx ∈
      (proj isTargetUse (prepare p e)).trace := List.mem_filter.mpr ⟨hP, rfl⟩
  obtain ⟨d1, d2, d3, d4, d5, d6⟩ := prepare_fat_tag p e tag ctx hP1
  obtain ⟨u1, u2⟩ := prepare_target_use p e tag ctx hP2
  have hsub : ∀ c, c ∈ (prepare p e).trace → c ∈ (OnCommand p e).trace := by
    intro c hc
    rcases OnCommand_cases p e with ⟨o, _, ht, _⟩ | ⟨r, t, _, ht, _⟩
    · rw [ht]
      exact hc
    · rw [ht]
      exact List.mem_append_left _ hc
  refine ⟨d1, d2, d3, fun a b c => ?_, fun a name ver hnv h1 h2 => ?_, d6,
    fun a b c d => hsub _ (List.mem_filter.mp
      (prepare_inspector_on_tag p e tag ctx a b c d hP2)).1, ?_⟩
  · apply d4 a b
    rw [stringsSplit_no_colon _ c]
    rfl
  · have hs := stringsSplit_pair name ver h1 h2
    rw [← hnv] at hs
    have hne : p.customImageTag ≠ "" := by
      intro h0
      have h3 := congrArg String.toList (hnv.symm.trans h0)
      simp at h3
    have h4 := d5 a hne (by rw [hs]; rfl)
    rw [hs] at h4
    exact h4
  · rcases OnCommand_cases p e with ⟨o, _, ht, _⟩ | ⟨r, t, hp, ht, _⟩
    · refine ⟨(proj isTargetUse (prepare p e)).trace, [], ?_, hP2, u1, Or.inl rfl⟩
      rw [ht, List.append_nil]
      rfl
    · have htag : t = tag := u2 r t hp
      refine ⟨(proj isTargetUse (prepare p e)).trace ++ (proj isTargetUse (observe p e t)).trace,
        after (observe p e t).res (fun _ => List.filter isTargetUse (minimize p e r).trace),
        ?_, List.mem_append_left _ hP2, ?_, ?_⟩
      · rw [ht, List.filter_append, List.filter_append, filter_after, List.append_assoc]
        rfl
      · intro c hc
        rcases List.mem_append.mp hc with h | h
        · exact u1 c h
        · rw [← htag]
          exact observe_target_use p e t c h
      · rcases hres : (observe p e t).res with a | o
        · exact minimize_target_use p e r
        · exact Or.inl rfl

/-- Witness of C18: the custom image tag "app:v1" gives the fat tag
"app.fat:v1", on which the image inspector is then constructed. -/
theorem C18_fat_tag_derivation_witness :
    Call.builder_NewBasicImageBuilder "app.fat:v1" "." ∈
      (OnCommand customTagBuildParams healthyEnv).trace ∧
    "app.fat:v1" = "app" ++ ".fat:" ++ "v1" ∧
    Call.image_NewInspector "app.fat:v1" ∈ (OnCommand customTagBuildParams healthyEnv).trace :=
  ⟨by decide,
    (C18_fat_tag_derivation customTagBuildParams healthyEnv "app.fat:v1" "." (by decide)).2.2.2.2.1
      rfl "app" "v1" (by decide) (by decide) (by decide),
    (C18_fat_tag_derivation customTagBuildParams healthyEnv "app.fat:v1" "."
      (by decide)).2.2.2.2.2.2.1 rfl rfl (by decide) (by decide)⟩

end Build
